import Mathlib

/-!
Shallow embedding of the Daily_AI_Paper_Bot notification/formatting pipeline
(`src/formatters/wechat.py`, `src/formatters/feishu.py`,
`src/formatters/markdown.py`, `src/notification/feishu.py`,
`src/notification/wechat.py`, `src/utils/helpers.py`, `src/main.py`).

Python strings are modelled as Lean `String` (a list of unicode scalar
values, matching Python's code-point view: `len` is `String.length`,
slicing is `List.take` on `String.data`).  `str.encode('utf-8')` lengths
are modelled by summing `Char.utf8Size`.  Python's `str.split`, `str.join`,
`str.strip`, `str.replace` and `str.startswith` are re-implemented below on
`List Char` so that their behaviour is fully transparent to proofs.

Wall-clock times (`time.time()` floats) are modelled as rationals; the
network (`httpx.post`) is modelled by an oracle list of `PostOutcome`s that
the send path consumes one per delivery attempt.
-/

/-- Python `c.isspace()` for the characters relevant to `str.strip()`. -/
def pySpace (c : Char) : Bool :=
  c = ' ' || c = '\t' || c = '\n' || c = '\r' || c = '\x0b' || c = '\x0c'

/-- Strip `pySpace` characters from both ends of a character list. -/
def stripChars (l : List Char) : List Char :=
  ((l.dropWhile pySpace).reverse.dropWhile pySpace).reverse

/-- Python `s.strip()`. -/
def pyStrip (s : String) : String := String.mk (stripChars s.data)

/-- Python `s.startswith(p)`. -/
def pyStartswith (s p : String) : Bool := p.data.isPrefixOf s.data

/-- Python `s.replace(pat, rep)` on character lists: replace every
non-overlapping occurrence of `pat`, scanning left to right, with an
explicit fuel argument to keep the recursion structural.  Every step
consumes at least one character, so fuel equal to the list length never
runs out.  (All call sites in the source use a non-empty `pat`; for
`pat = []` this function leaves the input unchanged.) -/
def replaceFuel (pat rep : List Char) : Nat → List Char → List Char
  | 0, l => l
  | _ + 1, [] => []
  | fuel + 1, c :: rest =>
    if pat ≠ [] ∧ pat.isPrefixOf (c :: rest) then
      rep ++ replaceFuel pat rep fuel (rest.drop (pat.length - 1))
    else
      c :: replaceFuel pat rep fuel rest

def replaceChars (pat rep : List Char) (l : List Char) : List Char :=
  replaceFuel pat rep l.length l

/-- Python `s.replace(pat, rep)`. -/
def pyReplace (s pat rep : String) : String :=
  String.mk (replaceChars pat.data rep.data s.data)

/-- Python `s.split(sep)` for a single-character separator, on character
lists.  Always returns at least one (possibly empty) piece. -/
def splitChars (sep : Char) : List Char → List (List Char)
  | [] => [[]]
  | a :: rest =>
    match splitChars sep rest with
    | [] => [[]]
    | g :: gs => if a = sep then [] :: g :: gs else (a :: g) :: gs

/-- Python `sep.join(pieces)` for a single-character separator, on
character lists. -/
def joinChars (sep : Char) : List (List Char) → List Char
  | [] => []
  | l :: ls =>
    match ls with
    | [] => l
    | _ :: _ => l ++ sep :: joinChars sep ls

/-- Python `s.split('\n')`. -/
def pySplitLines (s : String) : List String :=
  (splitChars '\n' s.data).map String.mk

/-- Python `'\n'.join(pieces)`. -/
def pyJoinLines (pieces : List String) : String :=
  String.mk (joinChars '\n' (pieces.map String.data))

/-- Python `' '.join(pieces)`. -/
def pyJoinSpace (pieces : List String) : String :=
  String.mk (joinChars ' ' (pieces.map String.data))

/-- Python `len(s.encode('utf-8'))` on a character list. -/
def utf8LenChars (l : List Char) : Nat := l.foldl (fun n c => n + c.utf8Size) 0

/-- Python `len(s.encode('utf-8'))`. -/
def utf8Len (s : String) : Nat := utf8LenChars s.data

/-- Python `s[:n]` (slicing by code points). -/
def pyTake (s : String) (n : Nat) : String := String.mk (s.data.take n)

/-- Python truthiness of an optional string: `None` and `''` are falsy. -/
def pyTruthyOpt : Option String → Bool
  | none => false
  | some s => s ≠ ""

theorem splitChars_ne_nil (sep : Char) (l : List Char) : splitChars sep l ≠ [] := by
  cases l with
  | nil => simp [splitChars]
  | cons a rest =>
    simp only [splitChars]
    cases h : splitChars sep rest with
    | nil => simp
    | cons g gs =>
      by_cases hac : a = sep <;> simp [hac]

/-- `join` undoes `split` (Python `sep.join(s.split(sep)) == s`). -/
theorem joinChars_splitChars (sep : Char) (l : List Char) :
    joinChars sep (splitChars sep l) = l := by
  induction l with
  | nil => simp [splitChars, joinChars]
  | cons a rest ih =>
    simp only [splitChars]
    cases h : splitChars sep rest with
    | nil => exact absurd h (splitChars_ne_nil sep rest)
    | cons g gs =>
      rw [h] at ih
      by_cases hac : a = sep
      · subst hac
        simp only [if_pos rfl, joinChars, List.nil_append]
        exact congrArg (a :: ·) ih
      · simp only [if_neg hac]
        cases gs with
        | nil => simp only [joinChars] at ih ⊢; rw [← ih]
        | cons g' gs' =>
          simp only [joinChars, List.cons_append] at ih ⊢
          rw [← ih]

/-! ## Paper records (`src/sources/*`, consumed as Python dicts)

A paper dict as produced by the sources: string-valued fields are
`Option String` (`none` = key absent), `authors` is a list (`[]` covers
both an absent key and an empty list, which Python treats alike as falsy).
-/

structure Paper where
  title : Option String := none
  authors : List String := []
  abstract : Option String := none
  url : Option String := none
  published : Option String := none
  source : Option String := none
  summary : Option String := none
deriving DecidableEq, Repr

/-- Python `paper.get(key)` for the string-valued fields (`None` for an
unknown key, as `dict.get` returns). -/
def paperGet (p : Paper) (key : String) : Option String :=
  if key = "url" then p.url
  else if key = "title" then p.title
  else if key = "abstract" then p.abstract
  else if key = "published" then p.published
  else if key = "source" then p.source
  else if key = "summary" then p.summary
  else none

/-! ## `utils.helpers.deduplicate_papers` (src/utils/helpers.py:107-131)

The loop keeps a paper only when `value and value not in seen`, i.e. when
the key's value is present, non-empty, and unseen; `seen` collects the kept
values.  The default key at every call site is `"url"`. -/

def deduplicateGo (key : String) : List Paper → List String → List Paper
  | [], _ => []
  | p :: rest, seen =>
    match paperGet p key with
    | some v =>
      if v ≠ "" ∧ v ∉ seen then p :: deduplicateGo key rest (v :: seen)
      else deduplicateGo key rest seen
    | none => deduplicateGo key rest seen

def deduplicate_papers (papers : List Paper) (key : String) : List Paper :=
  deduplicateGo key papers []

/-! ## The orchestrator's inline URL dedup (src/main.py:436-443)

`url = paper.get('url', '')` then `if url not in seen_urls` — unlike the
helper, a missing/empty url maps to `''`, which is deduplicated like any
other value, so the FIRST url-less paper is kept. -/

def mainDedupGo : List Paper → List String → List Paper
  | [], _ => []
  | p :: rest, seen =>
    if p.url.getD "" ∉ seen then p :: mainDedupGo rest (p.url.getD "" :: seen)
    else mainDedupGo rest seen

def mainDedup (papers : List Paper) : List Paper := mainDedupGo papers []

theorem deduplicateGo_sublist (key : String) (papers : List Paper) (seen : List String) :
    (deduplicateGo key papers seen).Sublist papers := by
  induction papers generalizing seen with
  | nil => simp [deduplicateGo]
  | cons p rest ih =>
    simp only [deduplicateGo]
    cases hv : paperGet p key with
    | none => exact (ih seen).cons p
    | some v =>
      by_cases h : v ≠ "" ∧ v ∉ seen
      · simp only [if_pos h]
        exact (ih (v :: seen)).cons₂ p
      · simp only [if_neg h]
        exact (ih seen).cons p

theorem deduplicateGo_key_notin_seen (key : String) (papers : List Paper)
    (seen : List String) (q : Paper) (hq : q ∈ deduplicateGo key papers seen) :
    ∃ v, paperGet q key = some v ∧ v ≠ "" ∧ v ∉ seen := by
  induction papers generalizing seen with
  | nil => simp [deduplicateGo] at hq
  | cons p rest ih =>
    cases hv : paperGet p key with
    | none =>
      simp only [deduplicateGo, hv] at hq
      exact ih seen hq
    | some v =>
      simp only [deduplicateGo, hv] at hq
      by_cases h : v ≠ "" ∧ v ∉ seen
      · rw [if_pos h] at hq
        rcases List.mem_cons.mp hq with rfl | hq'
        · exact ⟨v, hv, h⟩
        · rcases ih (v :: seen) hq' with ⟨w, hw, hw1, hw2⟩
          exact ⟨w, hw, hw1, fun hmem => hw2 (List.mem_cons_of_mem _ hmem)⟩
      · rw [if_neg h] at hq
        exact ih seen hq

theorem deduplicateGo_pairwise (key : String) (papers : List Paper) (seen : List String) :
    (deduplicateGo key papers seen).Pairwise
      (fun a b => paperGet a key ≠ paperGet b key) := by
  induction papers generalizing seen with
  | nil => simp [deduplicateGo]
  | cons p rest ih =>
    simp only [deduplicateGo]
    cases hv : paperGet p key with
    | none => exact ih seen
    | some v =>
      by_cases h : v ≠ "" ∧ v ∉ seen
      · simp only [if_pos h]
        refine List.Pairwise.cons ?_ (ih (v :: seen))
        intro q hq heq
        rcases deduplicateGo_key_notin_seen key rest (v :: seen) q hq with ⟨w, hw, _, hw2⟩
        rw [hv, hw] at heq
        obtain rfl : v = w := Option.some.inj heq
        exact hw2 (List.mem_cons_self v seen)
      · simp only [if_neg h]
        exact ih seen

theorem deduplicateGo_all_unique (key : String) (papers : List Paper) (seen : List String)
    (hkeys : ∀ p ∈ papers, ∃ v, paperGet p key = some v ∧ v ≠ "" ∧ v ∉ seen)
    (hpw : papers.Pairwise (fun a b => paperGet a key ≠ paperGet b key)) :
    deduplicateGo key papers seen = papers := by
  induction papers generalizing seen with
  | nil => simp [deduplicateGo]
  | cons p rest ih =>
    rcases hkeys p (List.mem_cons_self p rest) with ⟨v, hv, hv1, hv2⟩
    simp only [deduplicateGo, hv, if_pos (And.intro hv1 hv2)]
    refine congrArg (p :: ·) (ih (v :: seen) ?_ (List.pairwise_cons.mp hpw).2)
    intro q hq
    rcases hkeys q (List.mem_cons_of_mem p hq) with ⟨w, hw, hw1, hw2⟩
    refine ⟨w, hw, hw1, ?_⟩
    intro hmem
    rcases List.mem_cons.mp hmem with rfl | hmem'
    · exact (List.pairwise_cons.mp hpw).1 q hq (by rw [hv, hw])
    · exact hw2 hmem'

theorem mainDedupGo_eq_deduplicateGo (papers : List Paper) (seen : List String)
    (hurl : ∀ p ∈ papers, ∃ v, p.url = some v ∧ v ≠ "") :
    mainDedupGo papers seen = deduplicateGo "url" papers seen := by
  induction papers generalizing seen with
  | nil => simp [mainDedupGo, deduplicateGo]
  | cons p rest ih =>
    rcases hurl p (List.mem_cons_self p rest) with ⟨v, hv, hv1⟩
    have hget : paperGet p "url" = some v := by simp [paperGet, hv]
    have hrest : ∀ q ∈ rest, ∃ w, q.url = some w ∧ w ≠ "" :=
      fun q hq => hurl q (List.mem_cons_of_mem p hq)
    simp only [mainDedupGo, deduplicateGo, hget, hv, Option.getD_some]
    by_cases hmem : v ∈ seen
    · rw [if_neg (not_not_intro hmem), if_neg (fun h : v ≠ "" ∧ v ∉ seen => h.2 hmem)]
      exact ih seen hrest
    · rw [if_pos hmem, if_pos (And.intro hv1 hmem)]
      exact congrArg (p :: ·) (ih (v :: seen) hrest)

/-- Claim C4 (amended): for every input sequence of papers and dedup key,
`deduplicate_papers` preserves first-seen order (the output is a sublist of
the input) and its output contains no two elements with an equal dedup-key
value; papers whose key value is missing or empty are dropped, and for any
input whose elements all carry a non-empty key value, pairwise distinct,
the output equals the input. -/
theorem claim_C4_thm (papers : List Paper) (key : String) :
    (deduplicate_papers papers key).Sublist papers ∧
    (deduplicate_papers papers key).Pairwise
      (fun a b => paperGet a key ≠ paperGet b key) ∧
    ((∀ p ∈ papers, ∃ v, paperGet p key = some v ∧ v ≠ "") →
      papers.Pairwise (fun a b => paperGet a key ≠ paperGet b key) →
      deduplicate_papers papers key = papers) := by
  refine ⟨deduplicateGo_sublist key papers [],
          deduplicateGo_pairwise key papers [], ?_⟩
  intro hkeys hpw
  exact deduplicateGo_all_unique key papers []
    (fun p hp => by rcases hkeys p hp with ⟨v, hv, hv1⟩
                    exact ⟨v, hv, hv1, List.not_mem_nil v⟩) hpw

/-- Claim C4, counterexample to the claim as stated: a single paper whose
url key is absent has (vacuously) pairwise-distinct key values, yet
`deduplicate_papers` drops it, so the output is not the input. -/
theorem claim_C4_cex :
    (deduplicate_papers [Paper.mk none [] none none none none none] "url" = [] ∧
     [Paper.mk none [] none none none none none].Pairwise
       (fun a b => paperGet a "url" ≠ paperGet b "url")) := by
  constructor
  · rfl
  · exact List.pairwise_singleton _ _

/-- Claim C4 witness: instantiating the amended theorem on two papers with
distinct non-empty urls, deduplication returns the input unchanged. -/
theorem claim_C4_witness :
    deduplicate_papers
      [Paper.mk none [] none (some "http://x/1") none none none,
       Paper.mk none [] none (some "http://x/2") none none none] "url" =
      [Paper.mk none [] none (some "http://x/1") none none none,
       Paper.mk none [] none (some "http://x/2") none none none] :=
  (claim_C4_thm _ "url").2.2 (by decide) (by decide)

/-- Claim C10 (amended): on inputs whose papers all carry a non-empty url
the orchestrator's inline URL dedup agrees with
`utils.helpers.deduplicate_papers` at key "url"; they differ on papers with
a missing or empty url, which the inline loop keeps (first occurrence) and
the helper drops. -/
theorem claim_C10_thm (papers : List Paper)
    (hurl : ∀ p ∈ papers, ∃ v, p.url = some v ∧ v ≠ "") :
    mainDedup papers = deduplicate_papers papers "url" :=
  mainDedupGo_eq_deduplicateGo papers [] hurl

/-- Claim C10, counterexample to the claim as stated: on a single paper
with no url the inline dedup keeps the paper while the helper drops it. -/
theorem claim_C10_cex :
    mainDedup [Paper.mk none [] none none none none none] ≠
      deduplicate_papers [Paper.mk none [] none none none none none] "url" := by
  decide

/-- Claim C10 witness: the amended equivalence evaluated on two concrete
papers with non-empty distinct urls. -/
theorem claim_C10_witness :
    mainDedup
      [Paper.mk none [] none (some "http://x/1") none none none,
       Paper.mk none [] none (some "http://x/1") none none none,
       Paper.mk none [] none (some "http://x/2") none none none] =
    deduplicate_papers
      [Paper.mk none [] none (some "http://x/1") none none none,
       Paper.mk none [] none (some "http://x/1") none none none,
       Paper.mk none [] none (some "http://x/2") none none none] "url" :=
  claim_C10_thm _ (by decide)

/-! ## Python dict values for the parser result

`_parse_llm_summary` (both in `WeChatFormatter` and `FeishuFormatter`)
builds a dict whose values are strings, lists of strings, or the nested
`sections` dict mapping section names to lists of lines.  We model the
dict as an insertion-ordered association list with unique keys, exactly
like a Python dict. -/

inductive PyVal where
  | vs (v : String)
  | vl (v : List String)
  | vd (v : List (String × List String))
deriving DecidableEq, Repr

abbrev PyDict := List (String × PyVal)

/-- Python `d.get(k)` / `d[k]` read: first (unique) binding of `k`. -/
def alGet {β : Type} : List (String × β) → String → Option β
  | [], _ => none
  | (k', v) :: rest, k => if k' = k then some v else alGet rest k

/-- Python `d[k] = v`: update in place if present, else append. -/
def alSet {β : Type} : List (String × β) → String → β → List (String × β)
  | [], k, v => [(k, v)]
  | (k', v') :: rest, k, v =>
    if k' = k then (k, v) :: rest else (k', v') :: alSet rest k v

theorem alGet_alSet {β : Type} (d : List (String × β)) (k k' : String) (v : β) :
    alGet (alSet d k v) k' = if k = k' then some v else alGet d k' := by
  induction d with
  | nil =>
    by_cases h : k = k' <;> simp [alSet, alGet, h]
  | cons p rest ih =>
    obtain ⟨k0, v0⟩ := p
    by_cases h0 : k0 = k
    · subst h0
      by_cases h : k0 = k' <;> simp [alSet, alGet, h, ih]
    · simp only [alSet, if_neg h0, alGet]
      by_cases h1 : k0 = k'
      · subst h1
        have : ¬ k = k0 := fun h => h0 h.symm
        simp [alGet, this]
      · simp [alGet, h1, ih]

/-- `result['sections'][sec].append(x)` with the guard
`if current_section in result['sections']` (src/formatters/wechat.py:172);
a missing `sections` key cannot occur on any reachable state. -/
def appendSection (res : PyDict) (sec : String) (x : String) : PyDict :=
  match alGet res "sections" with
  | some (.vd sd) =>
    match alGet sd sec with
    | some ls => alSet res "sections" (.vd (alSet sd sec (ls ++ [x])))
    | none => res
  | _ => res

/-- Parser loop state: the result dict plus the `current_section` cursor
(`None` initially). -/
structure PState where
  res : PyDict
  cur : Option String
deriving DecidableEq, Repr

/-- Python truthiness of `current_section`. -/
def curTruthy : Option String → Bool
  | none => false
  | some s => s ≠ ""

/-- `parts = author_info.split('|')` of the first-author branch
(src/formatters/wechat.py:153-154). -/
def authorParts (stripped : String) : List String :=
  (splitChars '|' (pyStrip (pyReplace stripped "**第一作者**：" "")).data).map String.mk

/-- `parts[0].strip()`. -/
def authorName (stripped : String) : String := pyStrip ((authorParts stripped).headD "")

/-- `parts[1].strip() if len(parts) > 1 else '未知'`. -/
def authorInst (stripped : String) : String :=
  if (authorParts stripped).length > 1 then pyStrip ((authorParts stripped).getD 1 "")
  else "未知"

/-- `stripped.replace('*', '').strip()` of the bullet branch
(src/formatters/wechat.py:168). -/
def bulletPayload (stripped : String) : String := pyStrip (pyReplace stripped "*" "")

/-- One iteration of the line loop of
`WeChatFormatter._parse_llm_summary` (src/formatters/wechat.py:141-173),
transcribing the `if/elif` chain in order, applied to the
already-stripped line. -/
def parseStepWeChatS (st : PState) (stripped : String) : PState :=
  if stripped = "" then st
  else if pyStartswith stripped "## 📄 论文标题：" then
    { st with res := (alSet st.res "title_zh"
        (.vs (pyStrip (pyReplace stripped "## 📄 论文标题：" "")))) }
  else if pyStartswith stripped "**原标题**：" then
    { st with res := (alSet st.res "title_en"
        (.vs (pyStrip (pyReplace stripped "**原标题**：" "")))) }
  else if pyStartswith stripped "**第一作者**：" then
    { st with res := (alSet (alSet st.res "author" (.vs (authorName stripped)))
        "institution" (.vs (authorInst stripped))) }
  else if pyStartswith stripped "### 🎯 核心摘要" then
    { st with cur := some "summary" }
  else if pyStartswith stripped "### 💡 核心创新点与贡献" then
    { st with cur := some "innovations" }
  else if pyStartswith stripped "### 🧐 简评与启示" then
    { st with cur := some "comment" }
  else if pyStartswith stripped "🔗 **原文链接**：" then
    { st with res := (alSet st.res "url"
        (.vs (pyStrip (pyReplace stripped "🔗 **原文链接**：" "")))) }
  else if pyStartswith stripped "📚 **来源**：" then
    { st with res := (alSet st.res "source"
        (.vs (pyStrip (pyReplace stripped "📚 **来源**：" "")))) }
  else if pyStartswith stripped "*" ∧ st.cur = some "innovations" then
    if bulletPayload stripped ≠ "" then
      { st with res := appendSection st.res "innovations" (bulletPayload stripped) }
    else st
  else if curTruthy st.cur ∧ ¬ pyStartswith stripped "#" ∧ ¬ pyStartswith stripped "**" then
    match st.cur with
    | some sec => { st with res := appendSection st.res sec stripped }
    | none => st
  else st

/-- One iteration on a raw line: `stripped = line.strip()` first. -/
def parseStepWeChat (st : PState) (line : String) : PState :=
  parseStepWeChatS st (pyStrip line)

/-- Initial result dict of `WeChatFormatter._parse_llm_summary`
(src/formatters/wechat.py:127-139). -/
def parseInitWeChat : PState :=
  ⟨[("title_zh", .vs ""), ("title_en", .vs ""), ("author", .vs ""),
    ("institution", .vs ""), ("source", .vs ""),
    ("sections", .vd [("summary", []), ("innovations", []), ("comment", [])])],
   none⟩

/-- `WeChatFormatter._parse_llm_summary` (src/formatters/wechat.py:116-175). -/
def parse_llm_summary_wechat (summary : String) : PyDict :=
  ((pySplitLines summary).foldl parseStepWeChat parseInitWeChat).res

/-- One iteration of the line loop of
`FeishuFormatter._parse_llm_summary` (src/formatters/feishu.py:183-213):
same chain, but no `institution` field and the source marker is tried
before the link marker.  Applied to the already-stripped line. -/
def parseStepFeishuS (st : PState) (stripped : String) : PState :=
  if stripped = "" then st
  else if pyStartswith stripped "## 📄 论文标题：" then
    { st with res := (alSet st.res "title_zh"
        (.vs (pyStrip (pyReplace stripped "## 📄 论文标题：" "")))) }
  else if pyStartswith stripped "**原标题**：" then
    { st with res := (alSet st.res "title_en"
        (.vs (pyStrip (pyReplace stripped "**原标题**：" "")))) }
  else if pyStartswith stripped "**第一作者**：" then
    { st with res := (alSet st.res "author" (.vs (authorName stripped))) }
  else if pyStartswith stripped "### 🎯 核心摘要" then
    { st with cur := some "summary" }
  else if pyStartswith stripped "### 💡 核心创新点与贡献" then
    { st with cur := some "innovations" }
  else if pyStartswith stripped "### 🧐 简评与启示" then
    { st with cur := some "comment" }
  else if pyStartswith stripped "📚 **来源**：" then
    { st with res := (alSet st.res "source"
        (.vs (pyStrip (pyReplace stripped "📚 **来源**：" "")))) }
  else if pyStartswith stripped "🔗 **原文链接**：" then
    { st with res := (alSet st.res "url"
        (.vs (pyStrip (pyReplace stripped "🔗 **原文链接**：" "")))) }
  else if pyStartswith stripped "*" ∧ st.cur = some "innovations" then
    if bulletPayload stripped ≠ "" then
      { st with res := appendSection st.res "innovations" (bulletPayload stripped) }
    else st
  else if curTruthy st.cur ∧ ¬ pyStartswith stripped "#" ∧ ¬ pyStartswith stripped "**" then
    match st.cur with
    | some sec => { st with res := appendSection st.res sec stripped }
    | none => st
  else st

/-- One iteration on a raw line: `stripped = line.strip()` first. -/
def parseStepFeishu (st : PState) (line : String) : PState :=
  parseStepFeishuS st (pyStrip line)

/-- Initial result dict of `FeishuFormatter._parse_llm_summary`
(src/formatters/feishu.py:170-180): no `institution` key. -/
def parseInitFeishu : PState :=
  ⟨[("title_zh", .vs ""), ("title_en", .vs ""), ("author", .vs ""),
    ("source", .vs ""),
    ("sections", .vd [("summary", []), ("innovations", []), ("comment", [])])],
   none⟩

/-- `FeishuFormatter._parse_llm_summary` (src/formatters/feishu.py:167-215). -/
def parse_llm_summary_feishu (summary : String) : PyDict :=
  ((pySplitLines summary).foldl parseStepFeishu parseInitFeishu).res

/-- The three section-line lists live under the nested `sections` key. -/
def sectionLines (d : PyDict) (sec : String) : List String :=
  match alGet d "sections" with
  | some (.vd sd) => (alGet sd sec).getD []
  | _ => []

theorem alGet_alSet_self {β : Type} (d : List (String × β)) (k : String) (v : β) :
    alGet (alSet d k v) k = some v := by
  rw [alGet_alSet, if_pos rfl]

theorem alGet_alSet_of_ne {β : Type} (d : List (String × β)) {k k' : String} (v : β)
    (h : k ≠ k') : alGet (alSet d k v) k' = alGet d k' := by
  rw [alGet_alSet, if_neg h]

/-- Top-level keys the parsers never create. -/
def absentKeys : List String := ["summary", "innovations", "comment"]

/-- Top-level keys both parsers initialize and keep present. -/
def presentKeys : List String := ["title_zh", "title_en", "author", "source", "sections"]

/-- Every key either parser ever writes at top level. -/
def writtenKeys : List String :=
  ["title_zh", "title_en", "author", "institution", "source", "url", "sections"]

/-- Key-shape invariant of the parser result dict: the three section names
never appear as top-level keys, and the five initialized keys stay bound. -/
def KeyInv (d : PyDict) : Prop :=
  (∀ k ∈ absentKeys, alGet d k = none) ∧
  (∀ k ∈ presentKeys, (alGet d k).isSome)

theorem KeyInv_alSet (d : PyDict) (k : String) (v : PyVal)
    (h : KeyInv d) (hk : k ∈ writtenKeys) : KeyInv (alSet d k v) := by
  constructor
  · intro k' hk'
    have hne : ∀ a ∈ writtenKeys, ∀ b ∈ absentKeys, a ≠ b := by decide
    rw [alGet_alSet_of_ne d v (hne k hk k' hk')]
    exact h.1 k' hk'
  · intro k' hk'
    by_cases he : k = k'
    · subst he
      rw [alGet_alSet_self]
      rfl
    · rw [alGet_alSet_of_ne d v he]
      exact h.2 k' hk'

theorem KeyInv_appendSection (d : PyDict) (sec x : String) (h : KeyInv d) :
    KeyInv (appendSection d sec x) := by
  cases hg : alGet d "sections" with
  | none => simp only [appendSection, hg]; exact h
  | some v =>
    cases v with
    | vs s => simp only [appendSection, hg]; exact h
    | vl s => simp only [appendSection, hg]; exact h
    | vd sd =>
      cases hg2 : alGet sd sec with
      | none => simp only [appendSection, hg, hg2]; exact h
      | some ls =>
        simp only [appendSection, hg, hg2]
        exact KeyInv_alSet d "sections" _ h (by decide)

theorem KeyInv_parseStepWeChatS (st : PState) (stripped : String)
    (h : KeyInv st.res) : KeyInv (parseStepWeChatS st stripped).res := by
  unfold parseStepWeChatS
  by_cases h1 : stripped = ""
  · rw [if_pos h1]
    exact h
  rw [if_neg h1]
  by_cases h2 : pyStartswith stripped "## 📄 论文标题：" = true
  · rw [if_pos h2]
    exact KeyInv_alSet _ _ _ h (by decide)
  rw [if_neg h2]
  by_cases h3 : pyStartswith stripped "**原标题**：" = true
  · rw [if_pos h3]
    exact KeyInv_alSet _ _ _ h (by decide)
  rw [if_neg h3]
  by_cases h4 : pyStartswith stripped "**第一作者**：" = true
  · rw [if_pos h4]
    exact KeyInv_alSet _ _ _ (KeyInv_alSet _ _ _ h (by decide)) (by decide)
  rw [if_neg h4]
  by_cases h5 : pyStartswith stripped "### 🎯 核心摘要" = true
  · rw [if_pos h5]
    exact h
  rw [if_neg h5]
  by_cases h6 : pyStartswith stripped "### 💡 核心创新点与贡献" = true
  · rw [if_pos h6]
    exact h
  rw [if_neg h6]
  by_cases h7 : pyStartswith stripped "### 🧐 简评与启示" = true
  · rw [if_pos h7]
    exact h
  rw [if_neg h7]
  by_cases h8 : pyStartswith stripped "🔗 **原文链接**：" = true
  · rw [if_pos h8]
    exact KeyInv_alSet _ _ _ h (by decide)
  rw [if_neg h8]
  by_cases h9 : pyStartswith stripped "📚 **来源**：" = true
  · rw [if_pos h9]
    exact KeyInv_alSet _ _ _ h (by decide)
  rw [if_neg h9]
  by_cases h10 : pyStartswith stripped "*" = true ∧ st.cur = some "innovations"
  · rw [if_pos h10]
    by_cases h10b : bulletPayload stripped ≠ ""
    · rw [if_pos h10b]
      exact KeyInv_appendSection _ _ _ h
    · rw [if_neg h10b]
      exact h
  rw [if_neg h10]
  by_cases h11 : curTruthy st.cur = true ∧ ¬ pyStartswith stripped "#" = true ∧ ¬ pyStartswith stripped "**" = true
  · rw [if_pos h11]
    cases hcur : st.cur with
    | none => exact h
    | some sec => exact KeyInv_appendSection _ _ _ h
  · rw [if_neg h11]
    exact h

theorem KeyInv_parseStepFeishuS (st : PState) (stripped : String)
    (h : KeyInv st.res) : KeyInv (parseStepFeishuS st stripped).res := by
  unfold parseStepFeishuS
  by_cases h1 : stripped = ""
  · rw [if_pos h1]
    exact h
  rw [if_neg h1]
  by_cases h2 : pyStartswith stripped "## 📄 论文标题：" = true
  · rw [if_pos h2]
    exact KeyInv_alSet _ _ _ h (by decide)
  rw [if_neg h2]
  by_cases h3 : pyStartswith stripped "**原标题**：" = true
  · rw [if_pos h3]
    exact KeyInv_alSet _ _ _ h (by decide)
  rw [if_neg h3]
  by_cases h4 : pyStartswith stripped "**第一作者**：" = true
  · rw [if_pos h4]
    exact KeyInv_alSet _ _ _ h (by decide)
  rw [if_neg h4]
  by_cases h5 : pyStartswith stripped "### 🎯 核心摘要" = true
  · rw [if_pos h5]
    exact h
  rw [if_neg h5]
  by_cases h6 : pyStartswith stripped "### 💡 核心创新点与贡献" = true
  · rw [if_pos h6]
    exact h
  rw [if_neg h6]
  by_cases h7 : pyStartswith stripped "### 🧐 简评与启示" = true
  · rw [if_pos h7]
    exact h
  rw [if_neg h7]
  by_cases h8 : pyStartswith stripped "📚 **来源**：" = true
  · rw [if_pos h8]
    exact KeyInv_alSet _ _ _ h (by decide)
  rw [if_neg h8]
  by_cases h9 : pyStartswith stripped "🔗 **原文链接**：" = true
  · rw [if_pos h9]
    exact KeyInv_alSet _ _ _ h (by decide)
  rw [if_neg h9]
  by_cases h10 : pyStartswith stripped "*" = true ∧ st.cur = some "innovations"
  · rw [if_pos h10]
    by_cases h10b : bulletPayload stripped ≠ ""
    · rw [if_pos h10b]
      exact KeyInv_appendSection _ _ _ h
    · rw [if_neg h10b]
      exact h
  rw [if_neg h10]
  by_cases h11 : curTruthy st.cur = true ∧ ¬ pyStartswith stripped "#" = true ∧ ¬ pyStartswith stripped "**" = true
  · rw [if_pos h11]
    cases hcur : st.cur with
    | none => exact h
    | some sec => exact KeyInv_appendSection _ _ _ h
  · rw [if_neg h11]
    exact h

theorem KeyInv_foldl (step : PState → String → PState)
    (hstep : ∀ st line, KeyInv st.res → KeyInv (step st line).res)
    (lines : List String) (st : PState) (h : KeyInv st.res) :
    KeyInv (lines.foldl step st).res := by
  induction lines generalizing st with
  | nil => exact h
  | cons l rest ih => exact ih (step st l) (hstep st l h)

/-- Claim C9: for every input string, both `_parse_llm_summary` parsers
return a dict whose top-level keys include `title_zh`, `title_en`,
`author`, `source` and `sections` (present even for empty or unrecognized
input), and which never carries top-level `summary`, `innovations` or
`comment` keys — the three section line-lists live only under the nested
`sections` key — so a caller lookup `parsed.get('summary', default)`
always yields the default. -/
theorem claim_C9_thm (s : String) :
    (alGet (parse_llm_summary_wechat s) "summary" = none ∧
     alGet (parse_llm_summary_wechat s) "innovations" = none ∧
     alGet (parse_llm_summary_wechat s) "comment" = none ∧
     (∀ k ∈ presentKeys, (alGet (parse_llm_summary_wechat s) k).isSome) ∧
     (∀ dflt : Option PyVal,
        (alGet (parse_llm_summary_wechat s) "summary").or dflt = dflt)) ∧
    (alGet (parse_llm_summary_feishu s) "summary" = none ∧
     alGet (parse_llm_summary_feishu s) "innovations" = none ∧
     alGet (parse_llm_summary_feishu s) "comment" = none ∧
     (∀ k ∈ presentKeys, (alGet (parse_llm_summary_feishu s) k).isSome) ∧
     (∀ dflt : Option PyVal,
        (alGet (parse_llm_summary_feishu s) "summary").or dflt = dflt)) := by
  have hW : KeyInv (parse_llm_summary_wechat s) :=
    KeyInv_foldl parseStepWeChat
      (fun st line h => KeyInv_parseStepWeChatS st (pyStrip line) h)
      (pySplitLines s) parseInitWeChat ⟨by decide, by decide⟩
  have hF : KeyInv (parse_llm_summary_feishu s) :=
    KeyInv_foldl parseStepFeishu
      (fun st line h => KeyInv_parseStepFeishuS st (pyStrip line) h)
      (pySplitLines s) parseInitFeishu ⟨by decide, by decide⟩
  refine ⟨⟨hW.1 "summary" (by decide), hW.1 "innovations" (by decide),
          hW.1 "comment" (by decide), hW.2, ?_⟩,
         ⟨hF.1 "summary" (by decide), hF.1 "innovations" (by decide),
          hF.1 "comment" (by decide), hF.2, ?_⟩⟩
  · intro dflt
    rw [hW.1 "summary" (by decide)]
    rfl
  · intro dflt
    rw [hF.1 "summary" (by decide)]
    rfl

/-! ## Line classification facts for the WeChat summary parser (claim C8) -/

/-- Which section header (if any) a stripped line matches, in the parser's
`elif` order. -/
def sectionHeaderOf (stripped : String) : Option String :=
  if pyStartswith stripped "### 🎯 核心摘要" then some "summary"
  else if pyStartswith stripped "### 💡 核心创新点与贡献" then some "innovations"
  else if pyStartswith stripped "### 🧐 简评与启示" then some "comment"
  else none

/-- A stripped line matches one of the eight recognized marker prefixes of
`WeChatFormatter._parse_llm_summary`. -/
def isMarkerWeChat (stripped : String) : Bool :=
  pyStartswith stripped "## 📄 论文标题：" ||
  pyStartswith stripped "**原标题**：" ||
  pyStartswith stripped "**第一作者**：" ||
  pyStartswith stripped "### 🎯 核心摘要" ||
  pyStartswith stripped "### 💡 核心创新点与贡献" ||
  pyStartswith stripped "### 🧐 简评与启示" ||
  pyStartswith stripped "🔗 **原文链接**：" ||
  pyStartswith stripped "📚 **来源**："

theorem pyStartswith_incompat (s p q : String) (h : pyStartswith s p = true)
    (h1 : p.data.isPrefixOf q.data = false) (h2 : q.data.isPrefixOf p.data = false) :
    pyStartswith s q = false := by
  cases hq : pyStartswith s q with
  | false => rfl
  | true =>
    exfalso
    have hp' : p.data <+: s.data := List.isPrefixOf_iff_prefix.mp h
    have hq' : q.data <+: s.data := List.isPrefixOf_iff_prefix.mp hq
    rcases List.prefix_or_prefix_of_prefix hp' hq' with hc | hc
    · have := List.isPrefixOf_iff_prefix.mpr hc
      rw [h1] at this
      exact Bool.false_ne_true this
    · have := List.isPrefixOf_iff_prefix.mpr hc
      rw [h2] at this
      exact Bool.false_ne_true this

theorem pyStartswith_mono (s p q : String)
    (hpq : p.data.isPrefixOf q.data = true) (h : pyStartswith s q = true) :
    pyStartswith s p = true :=
  List.isPrefixOf_iff_prefix.mpr
    (List.IsPrefix.trans (List.isPrefixOf_iff_prefix.mp hpq)
      (List.isPrefixOf_iff_prefix.mp h))

theorem sectionHeaderOf_eq_none_iff (stripped : String) :
    sectionHeaderOf stripped = none ↔
      pyStartswith stripped "### 🎯 核心摘要" = false ∧
      pyStartswith stripped "### 💡 核心创新点与贡献" = false ∧
      pyStartswith stripped "### 🧐 简评与启示" = false := by
  unfold sectionHeaderOf
  by_cases a : pyStartswith stripped "### 🎯 核心摘要" = true
  · rw [if_pos a]
    simp [a]
  rw [if_neg a]
  by_cases b : pyStartswith stripped "### 💡 核心创新点与贡献" = true
  · rw [if_pos b]
    simp [b]
  rw [if_neg b]
  by_cases c : pyStartswith stripped "### 🧐 简评与启示" = true
  · rw [if_pos c]
    simp [c]
  rw [if_neg c]
  simp [eq_false_of_ne_true a, eq_false_of_ne_true b, eq_false_of_ne_true c]

/-- The cursor is unchanged by any line that is not a recognized section
header. -/
theorem parseStepS_cur_of_none (st : PState) (stripped : String)
    (hs : sectionHeaderOf stripped = none) :
    (parseStepWeChatS st stripped).cur = st.cur := by
  obtain ⟨f5, f6, f7⟩ := (sectionHeaderOf_eq_none_iff stripped).mp hs
  unfold parseStepWeChatS
  by_cases h1 : stripped = ""
  · rw [if_pos h1]
  rw [if_neg h1]
  by_cases h2 : pyStartswith stripped "## 📄 论文标题：" = true
  · rw [if_pos h2]
  rw [if_neg h2]
  by_cases h3 : pyStartswith stripped "**原标题**：" = true
  · rw [if_pos h3]
  rw [if_neg h3]
  by_cases h4 : pyStartswith stripped "**第一作者**：" = true
  · rw [if_pos h4]
  rw [if_neg h4, if_neg (by simp [f5]), if_neg (by simp [f6]), if_neg (by simp [f7])]
  by_cases h8 : pyStartswith stripped "🔗 **原文链接**：" = true
  · rw [if_pos h8]
  rw [if_neg h8]
  by_cases h9 : pyStartswith stripped "📚 **来源**：" = true
  · rw [if_pos h9]
  rw [if_neg h9]
  by_cases h10 : pyStartswith stripped "*" = true ∧ st.cur = some "innovations"
  · rw [if_pos h10]
    by_cases h10b : bulletPayload stripped ≠ ""
    · rw [if_pos h10b]
    · rw [if_neg h10b]
  rw [if_neg h10]
  by_cases h11 : curTruthy st.cur = true ∧ ¬ pyStartswith stripped "#" = true ∧
      ¬ pyStartswith stripped "**" = true
  · rw [if_pos h11]
    cases hcur : st.cur with
    | none => exact hcur
    | some sec => rfl
  · rw [if_neg h11]

/-- A recognized section-header line moves the cursor to that section. -/
theorem parseStepS_cur_of_header (st : PState) (stripped sec : String)
    (hs : sectionHeaderOf stripped = some sec) :
    (parseStepWeChatS st stripped).cur = some sec := by
  unfold sectionHeaderOf at hs
  by_cases a : pyStartswith stripped "### 🎯 核心摘要" = true
  · rw [if_pos a] at hs
    obtain rfl : sec = "summary" := (Option.some.inj hs).symm
    have hne : stripped ≠ "" := fun he => by
      rw [he] at a
      exact absurd a (by decide)
    have i1 := pyStartswith_incompat stripped _ "## 📄 论文标题：" a (by decide) (by decide)
    have i2 := pyStartswith_incompat stripped _ "**原标题**：" a (by decide) (by decide)
    have i3 := pyStartswith_incompat stripped _ "**第一作者**：" a (by decide) (by decide)
    unfold parseStepWeChatS
    rw [if_neg hne, if_neg (by simp [i1]), if_neg (by simp [i2]), if_neg (by simp [i3]),
        if_pos a]
  rw [if_neg a] at hs
  by_cases b : pyStartswith stripped "### 💡 核心创新点与贡献" = true
  · rw [if_pos b] at hs
    obtain rfl : sec = "innovations" := (Option.some.inj hs).symm
    have hne : stripped ≠ "" := fun he => by
      rw [he] at b
      exact absurd b (by decide)
    have i1 := pyStartswith_incompat stripped _ "## 📄 论文标题：" b (by decide) (by decide)
    have i2 := pyStartswith_incompat stripped _ "**原标题**：" b (by decide) (by decide)
    have i3 := pyStartswith_incompat stripped _ "**第一作者**：" b (by decide) (by decide)
    have i4 := pyStartswith_incompat stripped _ "### 🎯 核心摘要" b (by decide) (by decide)
    unfold parseStepWeChatS
    rw [if_neg hne, if_neg (by simp [i1]), if_neg (by simp [i2]), if_neg (by simp [i3]),
        if_neg (by simp [i4]), if_pos b]
  rw [if_neg b] at hs
  by_cases c : pyStartswith stripped "### 🧐 简评与启示" = true
  · rw [if_pos c] at hs
    obtain rfl : sec = "comment" := (Option.some.inj hs).symm
    have hne : stripped ≠ "" := fun he => by
      rw [he] at c
      exact absurd c (by decide)
    have i1 := pyStartswith_incompat stripped _ "## 📄 论文标题：" c (by decide) (by decide)
    have i2 := pyStartswith_incompat stripped _ "**原标题**：" c (by decide) (by decide)
    have i3 := pyStartswith_incompat stripped _ "**第一作者**：" c (by decide) (by decide)
    have i4 := pyStartswith_incompat stripped _ "### 🎯 核心摘要" c (by decide) (by decide)
    have i5 := pyStartswith_incompat stripped _ "### 💡 核心创新点与贡献" c (by decide) (by decide)
    unfold parseStepWeChatS
    rw [if_neg hne, if_neg (by simp [i1]), if_neg (by simp [i2]), if_neg (by simp [i3]),
        if_neg (by simp [i4]), if_neg (by simp [i5]), if_pos c]
  rw [if_neg c] at hs
  exact absurd hs (by simp)

/-- A line that strips to the empty string leaves the state unchanged. -/
theorem parseStepS_blank (st : PState) (stripped : String) (h : stripped = "") :
    parseStepWeChatS st stripped = st := by
  unfold parseStepWeChatS
  rw [if_pos h]

/-- A non-marker line while no section is open leaves the state unchanged. -/
theorem parseStepS_drop (st : PState) (stripped : String)
    (hcur : st.cur = none) (hM : isMarkerWeChat stripped = false) :
    parseStepWeChatS st stripped = st := by
  obtain ⟨⟨⟨⟨⟨⟨⟨m1, m2⟩, m3⟩, m4⟩, m5⟩, m6⟩, m7⟩, m8⟩ :
      ((((((pyStartswith stripped "## 📄 论文标题：" = false ∧
      pyStartswith stripped "**原标题**：" = false) ∧
      pyStartswith stripped "**第一作者**：" = false) ∧
      pyStartswith stripped "### 🎯 核心摘要" = false) ∧
      pyStartswith stripped "### 💡 核心创新点与贡献" = false) ∧
      pyStartswith stripped "### 🧐 简评与启示" = false) ∧
      pyStartswith stripped "🔗 **原文链接**：" = false) ∧
      pyStartswith stripped "📚 **来源**：" = false := by
    simpa [isMarkerWeChat, Bool.or_eq_false_iff] using hM
  unfold parseStepWeChatS
  by_cases h1 : stripped = ""
  · rw [if_pos h1]
  rw [if_neg h1, if_neg (by simp [m1]), if_neg (by simp [m2]), if_neg (by simp [m3]),
      if_neg (by simp [m4]), if_neg (by simp [m5]), if_neg (by simp [m6]),
      if_neg (by simp [m7]), if_neg (by simp [m8]),
      if_neg (by simp [hcur]), if_neg (by simp [hcur, curTruthy])]

/-- A non-empty, non-marker line not beginning with `#` or `*` is appended
verbatim (stripped) to the open section; lines beginning with a single `*`
are also appended verbatim when the open section is not `innovations`. -/
theorem parseStepS_append (st : PState) (stripped sec : String)
    (hcur : st.cur = some sec) (hsec : sec ≠ "")
    (hM : isMarkerWeChat stripped = false) (hne : stripped ≠ "")
    (hdstar : pyStartswith stripped "**" = false)
    (hhash : pyStartswith stripped "#" = false)
    (hstar : pyStartswith stripped "*" = false ∨ sec ≠ "innovations") :
    parseStepWeChatS st stripped = { st with res := appendSection st.res sec stripped } := by
  obtain ⟨⟨⟨⟨⟨⟨⟨m1, m2⟩, m3⟩, m4⟩, m5⟩, m6⟩, m7⟩, m8⟩ :
      ((((((pyStartswith stripped "## 📄 论文标题：" = false ∧
      pyStartswith stripped "**原标题**：" = false) ∧
      pyStartswith stripped "**第一作者**：" = false) ∧
      pyStartswith stripped "### 🎯 核心摘要" = false) ∧
      pyStartswith stripped "### 💡 核心创新点与贡献" = false) ∧
      pyStartswith stripped "### 🧐 简评与启示" = false) ∧
      pyStartswith stripped "🔗 **原文链接**：" = false) ∧
      pyStartswith stripped "📚 **来源**：" = false := by
    simpa [isMarkerWeChat, Bool.or_eq_false_iff] using hM
  have hbul : ¬ (pyStartswith stripped "*" = true ∧ st.cur = some "innovations") := by
    rcases hstar with hs | hs
    · intro hc
      rw [hs] at hc
      exact Bool.false_ne_true hc.1
    · intro hc
      rw [hcur] at hc
      exact hs (Option.some.inj hc.2)
  unfold parseStepWeChatS
  rw [if_neg hne, if_neg (by simp [m1]), if_neg (by simp [m2]), if_neg (by simp [m3]),
      if_neg (by simp [m4]), if_neg (by simp [m5]), if_neg (by simp [m6]),
      if_neg (by simp [m7]), if_neg (by simp [m8]), if_neg hbul,
      if_pos (And.intro (by rw [hcur]; exact decide_eq_true hsec)
        (And.intro (by simp [hhash]) (by simp [hdstar])))]
  cases hc : st.cur with
  | none =>
    rw [hc] at hcur
    exact absurd hcur (by simp)
  | some sec' =>
    rw [hc] at hcur
    obtain rfl : sec' = sec := Option.some.inj hcur
    rfl

/-- A bullet line (leading `*`) while `innovations` is open is appended
with all asterisks stripped; it is dropped if nothing remains. -/
theorem parseStepS_bullet (st : PState) (stripped : String)
    (hcur : st.cur = some "innovations")
    (hM : isMarkerWeChat stripped = false)
    (hstar : pyStartswith stripped "*" = true) :
    parseStepWeChatS st stripped =
      (if bulletPayload stripped ≠ "" then
        { st with res := appendSection st.res "innovations" (bulletPayload stripped) }
      else st) := by
  obtain ⟨⟨⟨⟨⟨⟨⟨m1, m2⟩, m3⟩, m4⟩, m5⟩, m6⟩, m7⟩, m8⟩ :
      ((((((pyStartswith stripped "## 📄 论文标题：" = false ∧
      pyStartswith stripped "**原标题**：" = false) ∧
      pyStartswith stripped "**第一作者**：" = false) ∧
      pyStartswith stripped "### 🎯 核心摘要" = false) ∧
      pyStartswith stripped "### 💡 核心创新点与贡献" = false) ∧
      pyStartswith stripped "### 🧐 简评与启示" = false) ∧
      pyStartswith stripped "🔗 **原文链接**：" = false) ∧
      pyStartswith stripped "📚 **来源**：" = false := by
    simpa [isMarkerWeChat, Bool.or_eq_false_iff] using hM
  have hne : stripped ≠ "" := fun he => by
    rw [he] at hstar
    exact absurd hstar (by decide)
  unfold parseStepWeChatS
  rw [if_neg hne, if_neg (by simp [m1]), if_neg (by simp [m2]), if_neg (by simp [m3]),
      if_neg (by simp [m4]), if_neg (by simp [m5]), if_neg (by simp [m6]),
      if_neg (by simp [m7]), if_neg (by simp [m8]),
      if_pos (And.intro hstar hcur)]

/-- Claim C8 (amended): the WeChat summary parser's section assignment is
driven by a single current-section cursor that changes only on the three
recognized section-header lines; blank lines are always skipped; a
non-marker line while no section is open is dropped; a non-empty,
non-marker line not starting with `#`, `**` or `*` is appended verbatim
(after stripping) to the open section (lines starting with a single `*`
are appended verbatim too when the open section is not `innovations`); a
line starting with `*` while `innovations` is open is appended with every
asterisk removed — not verbatim — and dropped if nothing remains. -/
theorem claim_C8_thm :
    (∀ st line, sectionHeaderOf (pyStrip line) = none →
      (parseStepWeChat st line).cur = st.cur) ∧
    (∀ st line sec, sectionHeaderOf (pyStrip line) = some sec →
      (parseStepWeChat st line).cur = some sec) ∧
    (∀ st line, pyStrip line = "" → parseStepWeChat st line = st) ∧
    (∀ st line, st.cur = none → isMarkerWeChat (pyStrip line) = false →
      parseStepWeChat st line = st) ∧
    (∀ st line sec, st.cur = some sec → sec ≠ "" →
      isMarkerWeChat (pyStrip line) = false → pyStrip line ≠ "" →
      pyStartswith (pyStrip line) "**" = false →
      pyStartswith (pyStrip line) "#" = false →
      (pyStartswith (pyStrip line) "*" = false ∨ sec ≠ "innovations") →
      parseStepWeChat st line =
        { st with res := appendSection st.res sec (pyStrip line) }) ∧
    (∀ st line, st.cur = some "innovations" →
      isMarkerWeChat (pyStrip line) = false →
      pyStartswith (pyStrip line) "*" = true →
      parseStepWeChat st line =
        (if bulletPayload (pyStrip line) ≠ "" then
          { st with res := appendSection st.res "innovations" (bulletPayload (pyStrip line)) }
        else st)) :=
  ⟨fun st line h => parseStepS_cur_of_none st (pyStrip line) h,
   fun st line sec h => parseStepS_cur_of_header st (pyStrip line) sec h,
   fun st line h => parseStepS_blank st (pyStrip line) h,
   fun st line h1 h2 => parseStepS_drop st (pyStrip line) h1 h2,
   fun st line sec h1 h2 h3 h4 h5 h6 h7 =>
     parseStepS_append st (pyStrip line) sec h1 h2 h3 h4 h5 h6 h7,
   fun st line h1 h2 h3 => parseStepS_bullet st (pyStrip line) h1 h2 h3⟩

/-- Claim C8, counterexample to the claim as stated: with the innovations
section open, the non-empty non-header line `* foo` is not appended
verbatim — the parser stores `foo`, with the bullet asterisk stripped. -/
theorem claim_C8_cex :
    sectionLines (parse_llm_summary_wechat "### 💡 核心创新点与贡献\n* foo")
        "innovations" = ["foo"] ∧
    ("foo" : String) ≠ "* foo" := by
  constructor
  · decide
  · decide

/-- Claim C8 witness: the amended characterization evaluated on concrete
states and lines: a blank line, a plain line with no section open, a
section-header line, a plain line appended to an open section, and a
bullet line under `innovations`. -/
theorem claim_C8_witness :
    parseStepWeChat parseInitWeChat "   " = parseInitWeChat ∧
    parseStepWeChat ⟨parseInitWeChat.res, none⟩ "hello" = ⟨parseInitWeChat.res, none⟩ ∧
    (parseStepWeChat parseInitWeChat "### 🎯 核心摘要").cur = some "summary" ∧
    (parseStepWeChat parseInitWeChat "hello").cur = parseInitWeChat.cur ∧
    parseStepWeChat ⟨parseInitWeChat.res, some "summary"⟩ " hello " =
      ⟨appendSection parseInitWeChat.res "summary" (pyStrip " hello "), some "summary"⟩ ∧
    parseStepWeChat ⟨parseInitWeChat.res, some "innovations"⟩ "* foo" =
      (if bulletPayload (pyStrip "* foo") ≠ "" then
        ⟨appendSection parseInitWeChat.res "innovations" (bulletPayload (pyStrip "* foo")),
         some "innovations"⟩
      else ⟨parseInitWeChat.res, some "innovations"⟩) :=
  ⟨claim_C8_thm.2.2.1 parseInitWeChat "   " (by decide),
   claim_C8_thm.2.2.2.1 ⟨parseInitWeChat.res, none⟩ "hello" rfl (by decide),
   claim_C8_thm.2.1 parseInitWeChat "### 🎯 核心摘要" "summary" (by decide),
   claim_C8_thm.1 parseInitWeChat "hello" (by decide),
   claim_C8_thm.2.2.2.2.1 ⟨parseInitWeChat.res, some "summary"⟩ " hello " "summary"
     rfl (by decide) (by decide) (by decide) (by decide) (by decide)
     (Or.inr (by decide)),
   claim_C8_thm.2.2.2.2.2 ⟨parseInitWeChat.res, some "innovations"⟩ "* foo"
     rfl (by decide) (by decide)⟩

/-! ## `WeChatFormatter` (src/formatters/wechat.py) -/

/-- Python `parsed.get(k, dflt)`: the stored value when the key is
present, the caller's default otherwise. -/
def dictGetD (d : PyDict) (k : String) (dflt : PyVal) : PyVal :=
  (alGet d k).getD dflt

/-- Use a parser-dict value as a string (every top-level string key holds
a `.vs`; other shapes cannot occur there). -/
def pyValStr : PyVal → String
  | .vs v => v
  | .vl _ => ""
  | .vd _ => ""

/-- Use a parser-dict value as a list of lines (the `.vl` default of
`parsed.get('summary', [])`; other shapes cannot occur there). -/
def pyValList : PyVal → List String
  | .vl v => v
  | .vs _ => []
  | .vd _ => []

/-- `WeChatFormatter._format_title` (src/formatters/wechat.py:177-179). -/
def wechatFormatTitle (title_zh : String) : String := "📌 **" ++ title_zh ++ "**"

/-- `WeChatFormatter._format_subtitle` (src/formatters/wechat.py:181-185). -/
def wechatFormatSubtitle (title_en : String) : String :=
  if title_en = "" then ""
  else "<font color=\"info\">" ++ title_en ++ "</font>"

/-- `WeChatFormatter._format_info` (src/formatters/wechat.py:187-192). -/
def wechatFormatInfo (author source : String) : String :=
  "> 👤 " ++ author ++ (if source ≠ "" then " | 📚 " ++ source else "")

/-- `WeChatFormatter._format_summary` (src/formatters/wechat.py:194-201);
`SUMMARY_MAX_LENGTH = 150`. -/
def wechatFormatSummary (summary_lines : List String) : String :=
  if summary_lines = [] then ""
  else
    "💡 " ++
      (if (pyJoinSpace summary_lines).length > 150 then
        pyTake (pyJoinSpace summary_lines) (150 - 3) ++ "..."
      else pyJoinSpace summary_lines)

/-- `WeChatFormatter._format_innovations` (src/formatters/wechat.py:203-214);
`INNOVATION_MAX_LENGTH = 80`, `MAX_INNOVATIONS_DISPLAY = 3`. -/
def wechatFormatInnovations (innovations : List String) : String :=
  if innovations = [] then ""
  else
    pyJoinLines ("> 🎯 <strong>核心创新</strong>" ::
      (innovations.take 3).map (fun innovation =>
        "> • " ++
          (if innovation.length > 80 then pyTake innovation (80 - 3) ++ "..."
           else innovation)))

/-- `WeChatFormatter._format_comment` (src/formatters/wechat.py:216-221). -/
def wechatFormatComment (comment_lines : List String) : String :=
  if comment_lines = [] then ""
  else "📝 <strong>简评</strong>：" ++ pyJoinSpace comment_lines

/-- `WeChatFormatter._format_link` (src/formatters/wechat.py:223-227). -/
def wechatFormatLink (url : String) : String :=
  if url = "" then "" else "> 🔗 [📖 阅读原文](" ++ url ++ ")"

/-- `WeChatFormatter.format_paper` (src/formatters/wechat.py:73-104).
Note that `parsed.get('title_zh', ...)` and `parsed.get('author', ...)`
find their keys always present (the parser initializes them to `''`), so
the paper-record fallbacks are dead; `parsed.get('summary', [])` and its
two siblings always yield the default `[]` (claim C9). -/
def wechat_format_paper (p : Paper) : String :=
  pyJoinLines (([
    wechatFormatTitle
      (pyValStr (dictGetD (parse_llm_summary_wechat (p.summary.getD "")) "title_zh"
        (.vs (p.title.getD "")))),
    wechatFormatSubtitle
      (pyValStr (dictGetD (parse_llm_summary_wechat (p.summary.getD "")) "title_en"
        (.vs ""))),
    wechatFormatInfo
      (pyValStr (dictGetD (parse_llm_summary_wechat (p.summary.getD "")) "author"
        (.vs (match p.authors with | a :: _ => a | [] => "Unknown"))))
      (match p.source with
       | some v => v
       | none =>
         pyValStr (dictGetD (parse_llm_summary_wechat (p.summary.getD "")) "source"
           (.vs ""))),
    wechatFormatSummary
      (pyValList (dictGetD (parse_llm_summary_wechat (p.summary.getD "")) "summary"
        (.vl []))),
    wechatFormatInnovations
      (pyValList (dictGetD (parse_llm_summary_wechat (p.summary.getD "")) "innovations"
        (.vl []))),
    wechatFormatComment
      (pyValList (dictGetD (parse_llm_summary_wechat (p.summary.getD "")) "comment"
        (.vl []))),
    wechatFormatLink (p.url.getD "")] : List String).filter (· ≠ ""))

/-- The message assembled by `WeChatFormatter.format_report` before the
length check (src/formatters/wechat.py:50-67): header, `---`, each paper
followed by `---`, a blank line, footer, joined by newlines.  `today`
stands for `str(datetime.date.today())` (the `metadata.get('date', ...)`
default) and `nowStr` for the `datetime.datetime.now().strftime(...)`
stamp in the footer. -/
def wechatReportMessage (today nowStr : String) (papers : List Paper)
    (metaDate metaTopic : Option String) : String :=
  pyJoinLines
    (["# 📅 AI 前沿论文日报 (" ++ metaDate.getD today ++ ")\n\n**主题**: " ++
        metaTopic.getD "大语言模型、智能体、增强型LLM推理和推理优化" ++
        "\n\n今日为您精选 " ++ toString papers.length ++ " 篇最新论文",
      "---"] ++
      papers.foldr (fun p acc => wechat_format_paper p :: "---" :: acc) [] ++
      ["", "> 📅 " ++ nowStr ++ " | 📊 共**" ++ toString papers.length ++ "**篇"])

/-- The truncation notice appended by
`WeChatFormatter._truncate_message` (src/formatters/wechat.py:229-233). -/
def truncationNotice : String := "\n\n*内容已截断，完整报告请查看 daily_report.md*"

/-- `WeChatFormatter._truncate_message`: slice to `max_length` code
points, then append the notice. -/
def wechat_truncate_message (max_length : Nat) (message : String) : String :=
  pyTake message max_length ++ truncationNotice

/-- `WeChatFormatter.format_report` (src/formatters/wechat.py:39-71) with
`max_length` the constructor parameter (default 4000). -/
def wechat_format_report (max_length : Nat) (today nowStr : String)
    (papers : List Paper) (metaDate metaTopic : Option String) : String :=
  if (wechatReportMessage today nowStr papers metaDate metaTopic).length > max_length then
    wechat_truncate_message max_length
      (wechatReportMessage today nowStr papers metaDate metaTopic)
  else wechatReportMessage today nowStr papers metaDate metaTopic

/-- `MarkdownFormatter.format_paper` (src/formatters/markdown.py:45-71):
a paper carrying an LLM summary is returned verbatim; otherwise a minimal
rendering is synthesized from the paper's own fields. -/
def markdown_format_paper (p : Paper) : String :=
  match p.summary with
  | some s => s
  | none =>
    "## 📄 论文标题：" ++ p.title.getD "" ++ "\n" ++
    "**第一作者**：" ++ (match p.authors with | a :: _ => a | [] => "Unknown") ++ "\n" ++
    "\n### 🎯 核心摘要\n" ++ p.abstract.getD "无摘要" ++ "\n" ++
    (match p.url with | some u => "\n🔗 **原文链接**: " ++ u ++ "\n" | none => "") ++
    (match p.source with | some s => "📚 **来源**: " ++ s ++ "\n" | none => "") ++
    "\n"

theorem pyTake_length (s : String) (n : Nat) : (pyTake s n).length = min n s.length := by
  show (List.take n s.data).length = min n s.data.length
  rw [List.length_take]

/-- Claim C1 (amended): the WeChat formatter's `format_report` output can
exceed the configured maximum by exactly the length of the appended
truncation notice (33 characters): the output length is always at most
`max_length + 33`, and whenever it exceeds `max_length`, the output is
the first `max_length` characters of the assembled message with the
truncation notice appended. -/
theorem claim_C1_thm (max_length : Nat) (today nowStr : String)
    (papers : List Paper) (metaDate metaTopic : Option String) :
    (wechat_format_report max_length today nowStr papers metaDate metaTopic).length ≤
      max_length + truncationNotice.length ∧
    ((wechat_format_report max_length today nowStr papers metaDate metaTopic).length >
        max_length →
      ∃ pre,
        wechat_format_report max_length today nowStr papers metaDate metaTopic =
          pre ++ truncationNotice ∧ pre.length = max_length) := by
  by_cases h : (wechatReportMessage today nowStr papers metaDate metaTopic).length > max_length
  · have hres : wechat_format_report max_length today nowStr papers metaDate metaTopic =
        pyTake (wechatReportMessage today nowStr papers metaDate metaTopic) max_length ++
          truncationNotice := by
      unfold wechat_format_report
      rw [if_pos h]
      rfl
    have hlen : (pyTake (wechatReportMessage today nowStr papers metaDate metaTopic)
        max_length).length = max_length := by
      rw [pyTake_length]
      omega
    constructor
    · rw [hres, String.length_append, hlen]
    · intro _
      exact ⟨pyTake (wechatReportMessage today nowStr papers metaDate metaTopic) max_length,
        hres, hlen⟩
  · have hres : wechat_format_report max_length today nowStr papers metaDate metaTopic =
        wechatReportMessage today nowStr papers metaDate metaTopic := by
      unfold wechat_format_report
      rw [if_neg h]
    constructor
    · rw [hres]
      omega
    · intro hgt
      rw [hres] at hgt
      omega

/-- Claim C1, counterexample to the claim as stated: a WeChat formatter
configured with a 50-character budget produces, even on an empty paper
list, an output longer than 50 characters (the truncated slice plus the
appended notice). -/
theorem claim_C1_cex :
    (wechat_format_report 50 "2026-01-01" "2026-01-01 08:00" [] none none).length > 50 := by
  decide

/-- Claim C1 witness: the amended theorem applied at budget 0, where the
output is exactly the truncation notice appended to the empty prefix. -/
theorem claim_C1_witness :
    ∃ pre,
      wechat_format_report 0 "2026-01-01" "2026-01-01 08:00" [] none none =
        pre ++ truncationNotice ∧ pre.length = 0 :=
  (claim_C1_thm 0 "2026-01-01" "2026-01-01 08:00" [] none none).2 (by decide)

/-- Claim C6 (the code contradicts it): for a pure source-fetched paper
with no `summary` key, `WeChatFormatter.format_paper` renders an empty
title and empty author — `parsed.get('title_zh', paper.get('title'))`
never falls back because the parser always stores the key with value
`''` — so the compact output contains neither the paper's title `T` nor
its first author; the Markdown formatter does synthesize from the paper's
own fields. -/
theorem claim_C6_thm :
    wechat_format_paper
        (Paper.mk (some "T") ["A"] none (some "u") none (some "arXiv") none) =
      "📌 ****\n> 👤  | 📚 arXiv\n> 🔗 [📖 阅读原文](u)" ∧
    ¬ ('T' ∈ ("📌 ****\n> 👤  | 📚 arXiv\n> 🔗 [📖 阅读原文](u)" : String).data) ∧
    'T' ∈ (markdown_format_paper
        (Paper.mk (some "T") ["A"] none (some "u") none (some "arXiv") none)).data := by
  refine ⟨by decide, by decide, by decide⟩

/-! ## `FeishuNotifier` (src/notification/feishu.py)

Wall-clock instants (`time.time()` floats) are rationals; `time.sleep` is
recorded as an `Event.sleep`; each `httpx.post` consumes one `PostOutcome`
from an oracle list (`.exc` = the call raised; `.resp t status code` = an
HTTP response arrived at time `t` with the given status and parsed `code`
field).  An exhausted oracle behaves as `.exc`. -/

def MAX_REQUEST_SIZE : Nat := 20 * 1024

def RATE_LIMIT_PER_MINUTE : Nat := 100

def RATE_LIMIT_PER_SECOND : Nat := 5

def PEAK_HOURS : List (Nat × Nat) := [(10, 0), (10, 30), (17, 0), (17, 30)]

structure RateState where
  request_count : Nat
  minute_start_time : ℚ
  last_request_time : ℚ
deriving DecidableEq, Repr

inductive PostOutcome where
  | exc
  | resp (t : ℚ) (status : Nat) (code : Option Int)
deriving DecidableEq, Repr

inductive Event where
  | sleep (seconds : ℚ)
  | post (msg_type : String) (message : String)
deriving DecidableEq, Repr

structure SendOut where
  ok : Bool
  st : RateState
  events : List Event
  rest : List PostOutcome
deriving DecidableEq, Repr

/-- The two state updates after a completed `httpx.post`
(src/notification/feishu.py:102-103 and 376-377). -/
def bumpState (st : RateState) (t : ℚ) : RateState :=
  { st with request_count := st.request_count + 1, last_request_time := t }

/-- `FeishuNotifier._retry_send` (src/notification/feishu.py:364-387):
up to `n` attempts, each preceded by a 5-second sleep; a completed post
(any status) bumps the rate state; only HTTP 200 with `code == 0`
returns true; an exception skips the bump and continues. -/
def retry_send (msg ty : String) : Nat → RateState → List PostOutcome → SendOut
  | 0, st, posts => ⟨false, st, [], posts⟩
  | n + 1, st, [] =>
    let r := retry_send msg ty n st []
    ⟨r.ok, r.st, Event.sleep 5 :: Event.post ty msg :: r.events, r.rest⟩
  | n + 1, st, .exc :: rest =>
    let r := retry_send msg ty n st rest
    ⟨r.ok, r.st, Event.sleep 5 :: Event.post ty msg :: r.events, r.rest⟩
  | n + 1, st, .resp t status code :: rest =>
    if status = 200 ∧ code = some 0 then
      ⟨true, bumpState st t, [Event.sleep 5, Event.post ty msg], rest⟩
    else
      let r := retry_send msg ty n (bumpState st t) rest
      ⟨r.ok, r.st, Event.sleep 5 :: Event.post ty msg :: r.events, r.rest⟩

/-- `FeishuNotifier._send_with_type` (src/notification/feishu.py:77-127):
one post; a completed post bumps the rate state; HTTP 200 with
`code == 0` succeeds; `code == 11232` sleeps 60 s and enters
`_retry_send` with 3 attempts; anything else (other codes, non-200,
exception) fails. -/
def send_with_type (message ty : String) (st : RateState) :
    List PostOutcome → SendOut
  | [] => ⟨false, st, [Event.post ty message], []⟩
  | .exc :: rest => ⟨false, st, [Event.post ty message], rest⟩
  | .resp t status code :: rest =>
    if status = 200 then
      if code = some 0 then ⟨true, bumpState st t, [Event.post ty message], rest⟩
      else if code = some 11232 then
        let r := retry_send message ty 3 (bumpState st t) rest
        ⟨r.ok, r.st, Event.post ty message :: Event.sleep 60 :: r.events, r.rest⟩
      else ⟨false, bumpState st t, [Event.post ty message], rest⟩
    else ⟨false, bumpState st t, [Event.post ty message], rest⟩

/-- First stage of `FeishuNotifier._wait_for_rate_limit`
(src/notification/feishu.py:189-205): reset the fixed window after 60 s,
else sleep out the window when the per-minute budget is exhausted. -/
def rate_minute_wait (st : RateState) (now : ℚ) : RateState × List Event :=
  if now - st.minute_start_time ≥ 60 then
    ({ st with request_count := 0, minute_start_time := now }, [])
  else if st.request_count ≥ RATE_LIMIT_PER_MINUTE then
    ({ st with request_count := 0
               minute_start_time := now + (60 - (now - st.minute_start_time)) },
     [Event.sleep (60 - (now - st.minute_start_time))])
  else (st, [])

/-- Second stage (src/notification/feishu.py:207-211): minimum
inter-request spacing of `1 / RATE_LIMIT_PER_SECOND` seconds, measured
from the `current_time` captured at entry (not refreshed after a
first-stage sleep, exactly as in the source). -/
def rate_second_wait (st : RateState) (now : ℚ) : List Event :=
  if now - st.last_request_time < 1 / (RATE_LIMIT_PER_SECOND : ℚ) then
    [Event.sleep (1 / (RATE_LIMIT_PER_SECOND : ℚ) - (now - st.last_request_time))]
  else []

def wait_for_rate_limit (st : RateState) (now : ℚ) : RateState × List Event :=
  ((rate_minute_wait st now).1, (rate_minute_wait st now).2 ++ rate_second_wait st now)

/-- `FeishuNotifier._is_peak_hour` (src/notification/feishu.py:213-219). -/
def is_peak_hour (hour minute : Nat) : Bool :=
  PEAK_HOURS.any (fun hm =>
    hour == hm.1 &&
    ((hm.2 : Int) - 5 ≤ (minute : Int) && (minute : Int) ≤ (hm.2 : Int) + 5))

/-- Loop of `FeishuNotifier._compress_message`
(src/notification/feishu.py:350-362): keep lines while they fit in
`max_size - 100`, else append the truncation notice and stop. -/
def compress_go (max_size : Nat) : List String → Nat → List String
  | [], _ => []
  | line :: rest, current_size =>
    if current_size + utf8Len line + 1 > max_size - 100 then
      ["\n\n*内容已截断，完整报告请查看 daily_report.md*"]
    else line :: compress_go max_size rest (current_size + utf8Len line + 1)

/-- `FeishuNotifier._compress_message` (src/notification/feishu.py:342-362). -/
def compress_message (message : String) (max_size : Nat) : String :=
  if utf8Len message ≤ max_size then message
  else pyJoinLines (compress_go max_size (pySplitLines message) 0)

/-- `FeishuNotifier._markdown_to_text` (src/notification/feishu.py:129-154):
the chain of `str.replace` calls, in source order. -/
def markdown_to_text (markdown : String) : String :=
  pyReplace (pyReplace (pyReplace (pyReplace (pyReplace (pyReplace (pyReplace
    (pyReplace (pyReplace (pyReplace markdown
      "### " "") "## " "") "# " "") "**" "") "[" "") "](" " ") ")" "")
      "> " "") "* " "• ") "`" ""

/-- `FeishuNotifier.send` (src/notification/feishu.py:38-75): precondition
check on the webhook, size guard with compression, rate-limit wait,
peak-hour deferral (30-second sleep), markdown attempt, then text
fallback after converting the message. -/
def feishu_send (webhook_url : Option String) (hour minute : Nat)
    (st : RateState) (now : ℚ) (message : String)
    (posts : List PostOutcome) : SendOut :=
  if pyTruthyOpt webhook_url = false then ⟨false, st, [], posts⟩
  else
    let message1 :=
      if utf8Len message > MAX_REQUEST_SIZE then
        compress_message message MAX_REQUEST_SIZE
      else message
    let stev := wait_for_rate_limit st now
    let evs2 := if is_peak_hour hour minute then [Event.sleep 30] else []
    let r := send_with_type message1 "markdown" stev.1 posts
    if r.ok then ⟨true, r.st, stev.2 ++ evs2 ++ r.events, r.rest⟩
    else
      let r2 := send_with_type (markdown_to_text message1) "text" r.st r.rest
      ⟨r2.ok, r2.st, stev.2 ++ evs2 ++ r.events ++ r2.events, r2.rest⟩

/-- `WeChatNotifier.send` (src/notification/wechat.py:31-73): no rate
state at all; one markdown post, succeeding on HTTP 200 with
`errcode == 0`. -/
def wechat_notifier_send (webhook_url : Option String) (message : String)
    (posts : List PostOutcome) : Bool × List Event × List PostOutcome :=
  if pyTruthyOpt webhook_url = false then (false, [], posts)
  else
    match posts with
    | [] => (false, [Event.post "markdown" message], [])
    | .exc :: rest => (false, [Event.post "markdown" message], rest)
    | .resp _ status code :: rest =>
      (decide (status = 200 ∧ code = some 0), [Event.post "markdown" message], rest)

/-- Claim C3: a notifier whose webhook endpoint is unset (None or the
empty string) returns false from `send` for every message, performs no
network request and no sleep, and leaves the rate-limit state
(request_count, minute_start_time, last_request_time) unchanged; the
WeChat notifier likewise returns false with no network activity. -/
theorem claim_C3_thm (webhook_url : Option String) (hour minute : Nat)
    (st : RateState) (now : ℚ) (message : String) (posts : List PostOutcome)
    (h : pyTruthyOpt webhook_url = false) :
    feishu_send webhook_url hour minute st now message posts =
      ⟨false, st, [], posts⟩ ∧
    wechat_notifier_send webhook_url message posts = (false, [], posts) := by
  constructor
  · unfold feishu_send
    rw [if_pos h]
  · unfold wechat_notifier_send
    rw [if_pos h]

/-- Claim C3 witness: the theorem evaluated at a `None` webhook and at an
empty-string webhook, on a concrete state and oracle. -/
theorem claim_C3_witness :
    (feishu_send none 9 0 ⟨7, 100, 200⟩ 260 "msg" [PostOutcome.exc] =
      ⟨false, ⟨7, 100, 200⟩, [], [PostOutcome.exc]⟩ ∧
     wechat_notifier_send none "msg" [PostOutcome.exc] =
      (false, [], [PostOutcome.exc])) ∧
    (feishu_send (some "") 10 0 ⟨7, 100, 200⟩ 260 "msg" [] =
      ⟨false, ⟨7, 100, 200⟩, [], []⟩ ∧
     wechat_notifier_send (some "") "msg" [] = (false, [], [])) :=
  ⟨claim_C3_thm none 9 0 ⟨7, 100, 200⟩ 260 "msg" [PostOutcome.exc] (by decide),
   claim_C3_thm (some "") 10 0 ⟨7, 100, 200⟩ 260 "msg" [] (by decide)⟩

/-- Claim C9 witness: the parsers evaluated on concrete inputs through
the claim theorem. -/
theorem claim_C9_witness :
    alGet (parse_llm_summary_wechat "") "summary" = none ∧
    (alGet (parse_llm_summary_wechat "") "title_zh").isSome = true ∧
    alGet (parse_llm_summary_feishu "hello\nworld") "summary" = none :=
  ⟨(claim_C9_thm "").1.1,
   (claim_C9_thm "").1.2.2.2.1 "title_zh" (by decide),
   (claim_C9_thm "hello\nworld").2.1⟩

/-- Number of oracle outcomes in a list that are completed HTTP
responses (as opposed to raised exceptions). -/
def numResp : List PostOutcome → Nat
  | [] => 0
  | .exc :: rest => numResp rest
  | .resp _ _ _ :: rest => numResp rest + 1

/-- Completion time of the last HTTP response in the list, or `init` when
there is none. -/
def lastRespTime (init : ℚ) : List PostOutcome → ℚ
  | [] => init
  | .exc :: rest => lastRespTime init rest
  | .resp t _ _ :: rest => lastRespTime t rest

theorem retry_send_rate_accounting (msg ty : String) (n : Nat) (st : RateState)
    (posts : List PostOutcome) :
    ∃ consumed,
      posts = consumed ++ (retry_send msg ty n st posts).rest ∧
      (retry_send msg ty n st posts).st.request_count =
        st.request_count + numResp consumed ∧
      (retry_send msg ty n st posts).st.last_request_time =
        lastRespTime st.last_request_time consumed ∧
      (retry_send msg ty n st posts).st.minute_start_time = st.minute_start_time := by
  induction n generalizing st posts with
  | zero => exact ⟨[], rfl, by simp [retry_send, numResp], by simp [retry_send, lastRespTime], rfl⟩
  | succ n ih =>
    cases posts with
    | nil =>
      obtain ⟨c, hc, h1, h2, h3⟩ := ih st []
      obtain rfl : c = [] := by
        cases c with
        | nil => rfl
        | cons x xs => exact absurd hc (by simp)
      exact ⟨[], by simpa [retry_send] using hc, by simpa [retry_send, numResp] using h1,
             by simpa [retry_send, lastRespTime] using h2, by simpa [retry_send] using h3⟩
    | cons o rest =>
      cases o with
      | exc =>
        obtain ⟨c, hc, h1, h2, h3⟩ := ih st rest
        refine ⟨.exc :: c, ?_, ?_, ?_, ?_⟩
        · simpa [retry_send] using congrArg (PostOutcome.exc :: ·) hc
        · simpa [retry_send, numResp] using h1
        · simpa [retry_send, lastRespTime] using h2
        · simpa [retry_send] using h3
      | resp t status code =>
        by_cases hok : status = 200 ∧ code = some 0
        · refine ⟨[.resp t status code], ?_, ?_, ?_, ?_⟩ <;>
            simp [retry_send, if_pos hok, numResp, lastRespTime, bumpState]
        · obtain ⟨c, hc, h1, h2, h3⟩ := ih (bumpState st t) rest
          refine ⟨.resp t status code :: c, ?_, ?_, ?_, ?_⟩
          · simpa [retry_send, if_neg hok] using
              congrArg (PostOutcome.resp t status code :: ·) hc
          · simp only [retry_send, if_neg hok, numResp]
            rw [h1]
            simp [bumpState]
            omega
          · simp only [retry_send, if_neg hok, lastRespTime]
            rw [h2]
            simp [bumpState]
          · simpa [retry_send, if_neg hok, bumpState] using h3

theorem send_with_type_rate_accounting (msg ty : String) (st : RateState)
    (posts : List PostOutcome) :
    ∃ consumed,
      posts = consumed ++ (send_with_type msg ty st posts).rest ∧
      (send_with_type msg ty st posts).st.request_count =
        st.request_count + numResp consumed ∧
      (send_with_type msg ty st posts).st.last_request_time =
        lastRespTime st.last_request_time consumed ∧
      (send_with_type msg ty st posts).st.minute_start_time = st.minute_start_time := by
  cases posts with
  | nil => exact ⟨[], rfl, by simp [send_with_type, numResp], by simp [send_with_type, lastRespTime], rfl⟩
  | cons o rest =>
    cases o with
    | exc =>
      exact ⟨[.exc], rfl, by simp [send_with_type, numResp],
             by simp [send_with_type, lastRespTime], rfl⟩
    | resp t status code =>
      by_cases h200 : status = 200
      · by_cases hok : code = some 0
        · refine ⟨[.resp t status code], ?_, ?_, ?_, ?_⟩ <;>
            simp [send_with_type, if_pos h200, if_pos hok, numResp, lastRespTime, bumpState]
        · by_cases hthrottle : code = some 11232
          · obtain ⟨c, hc, h1, h2, h3⟩ := retry_send_rate_accounting msg ty 3 (bumpState st t) rest
            refine ⟨.resp t status code :: c, ?_, ?_, ?_, ?_⟩
            · simpa [send_with_type, if_pos h200, if_neg hok, if_pos hthrottle] using
                congrArg (PostOutcome.resp t status code :: ·) hc
            · simp only [send_with_type, if_pos h200, if_neg hok, if_pos hthrottle, numResp]
              rw [h1]
              simp [bumpState]
              omega
            · simp only [send_with_type, if_pos h200, if_neg hok, if_pos hthrottle,
                lastRespTime]
              rw [h2]
              simp [bumpState]
            · simpa [send_with_type, if_pos h200, if_neg hok, if_pos hthrottle,
                bumpState] using h3
          · refine ⟨[.resp t status code], ?_, ?_, ?_, ?_⟩ <;>
              simp [send_with_type, if_pos h200, if_neg hok, if_neg hthrottle, numResp,
                lastRespTime, bumpState]
      · refine ⟨[.resp t status code], ?_, ?_, ?_, ?_⟩ <;>
          simp [send_with_type, if_neg h200, numResp, lastRespTime, bumpState]

/-- Claim C5 (amended): along `_send_with_type` and `_retry_send`, the
per-minute request counter increases by exactly the number of delivery
attempts that completed with an HTTP response (any status, any code), and
the last-request timestamp becomes the completion time of the last such
response; an attempt that ends in a network exception updates neither,
and the minute-window start is never touched by the attempt path. -/
theorem claim_C5_thm :
    (∀ msg ty st posts, ∃ consumed,
      posts = consumed ++ (send_with_type msg ty st posts).rest ∧
      (send_with_type msg ty st posts).st.request_count =
        st.request_count + numResp consumed ∧
      (send_with_type msg ty st posts).st.last_request_time =
        lastRespTime st.last_request_time consumed ∧
      (send_with_type msg ty st posts).st.minute_start_time =
        st.minute_start_time) ∧
    (∀ msg ty n st posts, ∃ consumed,
      posts = consumed ++ (retry_send msg ty n st posts).rest ∧
      (retry_send msg ty n st posts).st.request_count =
        st.request_count + numResp consumed ∧
      (retry_send msg ty n st posts).st.last_request_time =
        lastRespTime st.last_request_time consumed ∧
      (retry_send msg ty n st posts).st.minute_start_time =
        st.minute_start_time) :=
  ⟨fun msg ty st posts => send_with_type_rate_accounting msg ty st posts,
   fun msg ty n st posts => retry_send_rate_accounting msg ty n st posts⟩

/-- Claim C5, counterexample to the claim as stated: a delivery attempt
that raises a network exception (one post event is emitted) leaves the
request counter at 0 and the last-request timestamp at its old value,
instead of incrementing and updating them. -/
theorem claim_C5_cex :
    (send_with_type "m" "markdown" ⟨0, 0, 0⟩ [PostOutcome.exc]).events =
      [Event.post "markdown" "m"] ∧
    (send_with_type "m" "markdown" ⟨0, 0, 0⟩ [PostOutcome.exc]).st.request_count = 0 ∧
    (send_with_type "m" "markdown" ⟨0, 0, 0⟩ [PostOutcome.exc]).st.last_request_time = 0 := by
  refine ⟨rfl, rfl, rfl⟩

theorem send_with_type_events_head (msg ty : String) (st : RateState)
    (posts : List PostOutcome) :
    ∃ tail, (send_with_type msg ty st posts).events = Event.post ty msg :: tail := by
  cases posts with
  | nil => exact ⟨[], rfl⟩
  | cons o rest =>
    cases o with
    | exc => exact ⟨[], rfl⟩
    | resp t status code =>
      by_cases h200 : status = 200
      · by_cases hok : code = some 0
        · exact ⟨[], by simp [send_with_type, if_pos h200, if_pos hok]⟩
        · by_cases hth : code = some 11232
          · exact ⟨Event.sleep 60 :: (retry_send msg ty 3 (bumpState st t) rest).events,
              by simp [send_with_type, if_pos h200, if_neg hok, if_pos hth]⟩
          · exact ⟨[], by simp [send_with_type, if_pos h200, if_neg hok, if_neg hth]⟩
      · exact ⟨[], by simp [send_with_type, if_neg h200]⟩

theorem wait_for_rate_limit_events_sleep (st : RateState) (now : ℚ) :
    ∀ e ∈ (wait_for_rate_limit st now).2, ∃ d, e = Event.sleep d := by
  intro e he
  simp only [wait_for_rate_limit] at he
  rcases List.mem_append.mp he with h | h
  · unfold rate_minute_wait at h
    by_cases h1 : now - st.minute_start_time ≥ 60
    · rw [if_pos h1] at h
      simp at h
    · rw [if_neg h1] at h
      by_cases h2 : st.request_count ≥ RATE_LIMIT_PER_MINUTE
      · rw [if_pos h2] at h
        simp at h
        exact ⟨_, h⟩
      · rw [if_neg h2] at h
        simp at h
  · unfold rate_second_wait at h
    by_cases h1 : now - st.last_request_time < 1 / (RATE_LIMIT_PER_SECOND : ℚ)
    · rw [if_pos h1] at h
      simp at h
      exact ⟨_, h⟩
    · rw [if_neg h1] at h
      simp at h

/-- Claim C7 (amended): the peak-hour predicate holds exactly when the
wall-clock hour equals a peak mark's hour and the minute lies within 5 of
the mark's minute — so 09:55, although within five minutes of the 10:00
mark, is not peak because its hour differs — and whenever the predicate
holds and a webhook is configured, the send path emits a fixed 30-second
sleep after the rate-limit waits and immediately before the first
delivery attempt. -/
theorem claim_C7_thm :
    (∀ hour minute : Nat,
      is_peak_hour hour minute = true ↔
        ∃ hm ∈ PEAK_HOURS, hour = hm.1 ∧ ((minute : Int) - hm.2).natAbs ≤ 5) ∧
    (∀ (webhook_url : Option String) (hour minute : Nat) (st : RateState)
        (now : ℚ) (message : String) (posts : List PostOutcome),
      pyTruthyOpt webhook_url = true →
      is_peak_hour hour minute = true →
      ∃ evs1 evs2,
        (feishu_send webhook_url hour minute st now message posts).events =
          evs1 ++ Event.sleep 30 :: evs2 ∧
        (∀ e ∈ evs1, ∃ d, e = Event.sleep d) ∧
        ∃ ty m tail, evs2 = Event.post ty m :: tail) := by
  constructor
  · intro hour minute
    constructor
    · intro h
      simp [is_peak_hour, PEAK_HOURS] at h
      rcases h with ⟨h1, h2, h3⟩ | ⟨h1, h2, h3⟩ | ⟨h1, h2, h3⟩ | ⟨h1, h2, h3⟩
      · exact ⟨(10, 0), by simp [PEAK_HOURS], h1, by omega⟩
      · exact ⟨(10, 30), by simp [PEAK_HOURS], h1, by omega⟩
      · exact ⟨(17, 0), by simp [PEAK_HOURS], h1, by omega⟩
      · exact ⟨(17, 30), by simp [PEAK_HOURS], h1, by omega⟩
    · intro h
      rcases h with ⟨hm, hmem, heq, hband⟩
      simp [PEAK_HOURS] at hmem
      rcases hmem with rfl | rfl | rfl | rfl <;>
        · subst heq
          simp [is_peak_hour, PEAK_HOURS]
          omega
  · intro webhook_url hour minute st now message posts hw hpk
    unfold feishu_send
    rw [if_neg (by simp [hw])]
    dsimp only
    rw [if_pos hpk]
    set m1 := (if utf8Len message > MAX_REQUEST_SIZE then
      compress_message message MAX_REQUEST_SIZE else message) with hm1
    set r := send_with_type m1 "markdown" (wait_for_rate_limit st now).1 posts with hr
    obtain ⟨tail, htail⟩ := send_with_type_events_head m1 "markdown"
      (wait_for_rate_limit st now).1 posts
    rw [← hr] at htail
    by_cases hok : r.ok = true
    · rw [if_pos hok]
      refine ⟨(wait_for_rate_limit st now).2, Event.post "markdown" m1 :: tail, ?_,
        wait_for_rate_limit_events_sleep st now, ⟨"markdown", m1, tail, rfl⟩⟩
      show (wait_for_rate_limit st now).2 ++ [Event.sleep 30] ++ r.events =
        (wait_for_rate_limit st now).2 ++ Event.sleep 30 :: (Event.post "markdown" m1 :: tail)
      rw [htail]
      simp
    · rw [if_neg hok]
      set r2 := send_with_type (markdown_to_text m1) "text" r.st r.rest with hr2
      refine ⟨(wait_for_rate_limit st now).2,
        Event.post "markdown" m1 :: (tail ++ r2.events), ?_,
        wait_for_rate_limit_events_sleep st now,
        ⟨"markdown", m1, tail ++ r2.events, rfl⟩⟩
      show (wait_for_rate_limit st now).2 ++ [Event.sleep 30] ++ r.events ++ r2.events =
        (wait_for_rate_limit st now).2 ++
          Event.sleep 30 :: (Event.post "markdown" m1 :: (tail ++ r2.events))
      rw [htail]
      simp

/-- Claim C7, counterexample to the claim as stated: 09:55 lies within
the ±5-minute band around the 10:00 peak mark (|595 − 600| ≤ 5), yet
`_is_peak_hour` is false there because it also requires the hour to
match. -/
theorem claim_C7_cex :
    is_peak_hour 9 55 = false ∧ (10, 0) ∈ PEAK_HOURS ∧
    ((9 * 60 + 55 : Int) - (10 * 60 + 0)).natAbs ≤ 5 := by
  refine ⟨rfl, by decide, by decide⟩

/-- Claim C7 witness: 10:03 is peak by the amended characterization, and
a configured notifier at a peak instant emits the 30-second deferral
sleep right before its first delivery attempt. -/
theorem claim_C7_witness :
    is_peak_hour 10 3 = true ∧
    (∃ evs1 evs2,
      (feishu_send (some "https://w") 10 3 ⟨0, 0, 0⟩ 100 "m"
          [PostOutcome.resp 100 200 (some 0)]).events =
        evs1 ++ Event.sleep 30 :: evs2 ∧
      (∀ e ∈ evs1, ∃ d, e = Event.sleep d) ∧
      ∃ ty m tail, evs2 = Event.post ty m :: tail) :=
  ⟨(claim_C7_thm.1 10 3).mpr ⟨(10, 0), by decide, rfl, by decide⟩,
   claim_C7_thm.2 (some "https://w") 10 3 ⟨0, 0, 0⟩ 100 "m"
     [PostOutcome.resp 100 200 (some 0)] (by decide) (by decide)⟩

/-! ## `FeishuNotifier._send_segmented` (src/notification/feishu.py:287-320)

The loop accumulates lines into `current_segment`; before appending a
line it flushes the accumulated (non-empty) segment when the running size
plus this line's size would exceed `MAX_REQUEST_SIZE - 500`; the final
segment is flushed after the loop.  `current_size` counts each line's
UTF-8 length plus one newline byte. -/

def segGo (maxSize : Nat) : List String → List String → Nat → List (List String)
  | [], cur, _ => if cur = [] then [] else [cur]
  | line :: rest, cur, size =>
    if size + (utf8Len line + 1) > maxSize - 500 ∧ cur ≠ [] then
      cur :: segGo maxSize rest [line] (utf8Len line + 1)
    else
      segGo maxSize rest (cur ++ [line]) (size + (utf8Len line + 1))

/-- The ordered segments `_send_segmented` would send for a content
string. -/
def send_segmented_segments (content : String) : List String :=
  (segGo MAX_REQUEST_SIZE (pySplitLines content) [] 0).map pyJoinLines

theorem segGo_join (maxSize : Nat) (ls : List String) (cur : List String) (size : Nat) :
    (segGo maxSize ls cur size).flatten = cur ++ ls := by
  induction ls generalizing cur size with
  | nil =>
    by_cases h : cur = []
    · simp [segGo, h]
    · simp [segGo, h]
  | cons line rest ih =>
    by_cases h : size + (utf8Len line + 1) > maxSize - 500 ∧ cur ≠ []
    · simp only [segGo, if_pos h, List.flatten_cons, ih]
      simp
    · simp only [segGo, if_neg h, ih]
      simp

theorem segGo_ne_nil (maxSize : Nat) (ls : List String) (cur : List String) (size : Nat) :
    ∀ g ∈ segGo maxSize ls cur size, g ≠ [] := by
  induction ls generalizing cur size with
  | nil =>
    intro g hg
    by_cases h : cur = []
    · simp [segGo, h] at hg
    · simp [segGo, h] at hg
      simpa [hg] using h
  | cons line rest ih =>
    intro g hg
    by_cases h : size + (utf8Len line + 1) > maxSize - 500 ∧ cur ≠ []
    · simp only [segGo, if_pos h, List.mem_cons] at hg
      rcases hg with rfl | hg
      · exact h.2
      · exact ih [line] (utf8Len line + 1) g hg
    · simp only [segGo, if_neg h] at hg
      exact ih (cur ++ [line]) (size + (utf8Len line + 1)) g hg

theorem joinChars_cons_of_ne_nil (c : Char) (l : List Char) (ls : List (List Char))
    (h : ls ≠ []) : joinChars c (l :: ls) = l ++ c :: joinChars c ls := by
  cases ls with
  | nil => exact absurd rfl h
  | cons a as => rfl

theorem joinChars_append_of_ne_nil (c : Char) (l1 l2 : List (List Char))
    (h1 : l1 ≠ []) (h2 : l2 ≠ []) :
    joinChars c (l1 ++ l2) = joinChars c l1 ++ c :: joinChars c l2 := by
  induction l1 with
  | nil => exact absurd rfl h1
  | cons a l1' ih =>
    cases l1' with
    | nil =>
      rw [List.singleton_append, joinChars_cons_of_ne_nil c a l2 h2]
      rfl
    | cons b l1'' =>
      rw [List.cons_append,
        joinChars_cons_of_ne_nil c a ((b :: l1'') ++ l2) (by simp),
        joinChars_cons_of_ne_nil c a (b :: l1'') (by simp),
        ih (by simp)]
      simp

theorem join_ne_nil_of_head_ne_nil {α : Type} (gs : List (List α)) (g : List α)
    (hg : g ≠ []) : (g :: gs).flatten ≠ [] := by
  simp only [List.flatten_cons]
  intro h
  exact hg (List.append_eq_nil.mp h).1

theorem joinChars_flatten (c : Char) (gs : List (List (List Char)))
    (h : ∀ g ∈ gs, g ≠ []) :
    joinChars c (gs.map (joinChars c)) = joinChars c gs.flatten := by
  induction gs with
  | nil => rfl
  | cons g gs' ih =>
    cases gs' with
    | nil => simp [joinChars]
    | cons g' gs'' =>
      have hg : g ≠ [] := h g (by simp)
      have hg' : g' ≠ [] := h g' (by simp)
      have hrest : ∀ x ∈ g' :: gs'', x ≠ [] := fun x hx => h x (by simp [hx])
      have hjoin_ne : (g' :: gs'').flatten ≠ [] := by
        cases g' with
        | nil => exact absurd rfl hg'
        | cons a as => exact join_ne_nil_of_head_ne_nil gs'' (a :: as) (by simp)
      rw [List.map_cons,
        joinChars_cons_of_ne_nil c (joinChars c g) ((g' :: gs'').map (joinChars c)) (by simp),
        ih hrest,
        show (g :: g' :: gs'').flatten = g ++ (g' :: gs'').flatten from rfl,
        joinChars_append_of_ne_nil c g (g' :: gs'').flatten hg hjoin_ne]

theorem String.mk_data (s : String) : String.mk s.data = s := rfl

/-- Joining the segments with newlines reconstructs the content exactly. -/
theorem segments_reconstruct (content : String) :
    pyJoinLines (send_segmented_segments content) = content := by
  have hgroups := segGo_ne_nil MAX_REQUEST_SIZE (pySplitLines content) [] 0
  have hflat : (segGo MAX_REQUEST_SIZE (pySplitLines content) [] 0).flatten =
      pySplitLines content := by
    rw [segGo_join]
    rfl
  unfold send_segmented_segments
  show String.mk (joinChars '\n'
      (((segGo MAX_REQUEST_SIZE (pySplitLines content) [] 0).map pyJoinLines).map
        String.data)) = content
  rw [List.map_map]
  have hcomp : (String.data ∘ pyJoinLines) =
      fun g : List String => joinChars '\n' (g.map String.data) := by
    funext g
    rfl
  rw [hcomp]
  have hmapmap :
      ((segGo MAX_REQUEST_SIZE (pySplitLines content) [] 0).map
        (fun g : List String => joinChars '\n' (g.map String.data))) =
      (((segGo MAX_REQUEST_SIZE (pySplitLines content) [] 0).map
        (fun g : List String => g.map String.data)).map (joinChars '\n')) := by
    rw [List.map_map]
    rfl
  rw [hmapmap, joinChars_flatten '\n' _ ?hne]
  case hne =>
    intro x hx
    rcases List.mem_map.mp hx with ⟨g, hg, rfl⟩
    have := hgroups g hg
    simpa using this
  rw [← List.map_flatten, hflat]
  have hdata : (pySplitLines content).map String.data = splitChars '\n' content.data := by
    unfold pySplitLines
    rw [List.map_map]
    have : (String.data ∘ String.mk) = fun l : List Char => l := by
      funext l
      rfl
    rw [this]
    exact List.map_id _
  rw [hdata, joinChars_splitChars]

/-- Running size `current_size` of a segment: each line's UTF-8 length
plus one newline byte. -/
def lineSizeSum (g : List String) : Nat := (g.map (fun l => utf8Len l + 1)).sum

theorem utf8LenChars_shift (l : List Char) (n : Nat) :
    l.foldl (fun n c => n + c.utf8Size) n = n + utf8LenChars l := by
  induction l generalizing n with
  | nil => simp [utf8LenChars]
  | cons c rest ih =>
    show rest.foldl (fun n c => n + c.utf8Size) (n + c.utf8Size) =
      n + utf8LenChars (c :: rest)
    rw [ih (n + c.utf8Size)]
    have : utf8LenChars (c :: rest) =
        rest.foldl (fun n c => n + c.utf8Size) c.utf8Size := by
      simp [utf8LenChars, List.foldl]
    rw [this, ih c.utf8Size]
    omega

theorem utf8LenChars_append (a b : List Char) :
    utf8LenChars (a ++ b) = utf8LenChars a + utf8LenChars b := by
  unfold utf8LenChars
  rw [List.foldl_append]
  exact utf8LenChars_shift b _

theorem utf8LenChars_cons (c : Char) (l : List Char) :
    utf8LenChars (c :: l) = c.utf8Size + utf8LenChars l := by
  show List.foldl (fun n c => n + c.utf8Size) (0 + c.utf8Size) l = c.utf8Size + utf8LenChars l
  rw [utf8LenChars_shift]
  omega

/-- The UTF-8 size of a joined segment is the sum of its lines' sizes
plus the separating newlines (one fewer than the line count). -/
theorem utf8Len_pyJoinLines (g : List String) (hne : g ≠ []) :
    utf8Len (pyJoinLines g) + 1 = lineSizeSum g := by
  induction g with
  | nil => exact absurd rfl hne
  | cons l g' ih =>
    cases g' with
    | nil =>
      show utf8LenChars (joinChars '\n' [l.data]) + 1 = lineSizeSum [l]
      simp [joinChars, lineSizeSum, utf8Len]
    | cons l2 g'' =>
      have hmapne : (l2 :: g'').map String.data ≠ [] := by simp
      show utf8LenChars (joinChars '\n' (l.data :: (l2 :: g'').map String.data)) + 1 =
        lineSizeSum (l :: l2 :: g'')
      rw [joinChars_cons_of_ne_nil '\n' l.data _ hmapne, utf8LenChars_append,
        utf8LenChars_cons]
      have ih2 := ih (by simp)
      have : utf8LenChars (joinChars '\n' ((l2 :: g'').map String.data)) =
          utf8Len (pyJoinLines (l2 :: g'')) := rfl
      rw [this]
      have hsum : lineSizeSum (l :: l2 :: g'') =
          (utf8Len l + 1) + lineSizeSum (l2 :: g'') := by
        simp [lineSizeSum]
      rw [hsum, ← ih2]
      show utf8Len l + (1 + (utf8Len (pyJoinLines (l2 :: g'')))) + 1 =
        utf8Len l + 1 + (utf8Len (pyJoinLines (l2 :: g'')) + 1)
      omega

theorem segGo_size_bound (maxSize : Nat) (ls cur : List String) (size : Nat)
    (hsize : size = lineSizeSum cur)
    (hcur : cur ≠ [] → size ≤ maxSize - 500)
    (hlines : ∀ l ∈ ls, utf8Len l + 1 ≤ maxSize - 500) :
    ∀ g ∈ segGo maxSize ls cur size, lineSizeSum g ≤ maxSize - 500 := by
  induction ls generalizing cur size with
  | nil =>
    intro g hg
    by_cases h : cur = []
    · simp [segGo, h] at hg
    · simp [segGo, h] at hg
      subst hg
      exact hsize ▸ hcur h
  | cons line rest ih =>
    intro g hg
    by_cases h : size + (utf8Len line + 1) > maxSize - 500 ∧ cur ≠ []
    · simp only [segGo, if_pos h, List.mem_cons] at hg
      rcases hg with rfl | hg
      · exact hsize ▸ hcur h.2
      · refine ih [line] (utf8Len line + 1) ?_ ?_ ?_ g hg
        · simp [lineSizeSum]
        · intro _
          exact hlines line (by simp)
        · intro l hl
          exact hlines l (by simp [hl])
    · simp only [segGo, if_neg h] at hg
      refine ih (cur ++ [line]) (size + (utf8Len line + 1)) ?_ ?_ ?_ g hg
      · simp [lineSizeSum, hsize]
      · intro _
        rcases not_and_or.mp h with hA | hB
        · omega
        · have hcurnil : cur = [] := not_not.mp hB
          have : size = 0 := by
            rw [hsize, hcurnil]
            rfl
          have hline := hlines line (by simp)
          omega
      · intro l hl
        exact hlines l (by simp [hl])

/-- Claim C2 (amended): the notifier's segmentation splits only at line
boundaries (the segments are newline-joins of a partition of the content's
lines), and joining the segments in order with newline separators
reconstructs the original content exactly; every produced segment has
UTF-8 size at most `MAX_REQUEST_SIZE - 500` provided every single line of
the message (plus its newline byte) fits within that budget — a single
longer line is emitted as its own oversized segment. -/
theorem claim_C2_thm (content : String) :
    pyJoinLines (send_segmented_segments content) = content ∧
    (∃ groups : List (List String),
      groups.flatten = pySplitLines content ∧
      send_segmented_segments content = groups.map pyJoinLines) ∧
    ((∀ l ∈ pySplitLines content, utf8Len l + 1 ≤ MAX_REQUEST_SIZE - 500) →
      ∀ seg ∈ send_segmented_segments content,
        utf8Len seg ≤ MAX_REQUEST_SIZE - 500) := by
  refine ⟨segments_reconstruct content,
    ⟨segGo MAX_REQUEST_SIZE (pySplitLines content) [] 0, ?_, rfl⟩, ?_⟩
  · rw [segGo_join]
    rfl
  · intro hlines seg hseg
    rcases List.mem_map.mp hseg with ⟨g, hg, rfl⟩
    have hne := segGo_ne_nil _ _ _ _ g hg
    have hbound := segGo_size_bound MAX_REQUEST_SIZE (pySplitLines content) [] 0 rfl
      (fun hc => absurd rfl hc) hlines g hg
    have hjoin := utf8Len_pyJoinLines g hne
    omega

def longLine : String := String.mk (List.replicate 20000 'a')

theorem utf8LenChars_replicate (n : Nat) (c : Char) :
    utf8LenChars (List.replicate n c) = n * c.utf8Size := by
  induction n with
  | zero => simp [utf8LenChars]
  | succ n ih =>
    rw [List.replicate_succ, utf8LenChars_cons, ih]
    ring

theorem splitChars_replicate_of_ne (sep c : Char) (h : ¬ c = sep) (n : Nat) :
    splitChars sep (List.replicate n c) = [List.replicate n c] := by
  induction n with
  | zero => rfl
  | succ n ih =>
    show splitChars sep (c :: List.replicate n c) = [List.replicate (n + 1) c]
    simp only [splitChars, ih]
    rw [if_neg h, List.replicate_succ]

theorem utf8Len_longLine : utf8Len longLine = 20000 := by
  show utf8LenChars (List.replicate 20000 'a') = 20000
  rw [utf8LenChars_replicate]
  rfl

/-- Claim C2, counterexample to the claim as stated: a content made of one
20000-byte line is emitted as a single segment of 20000 bytes, exceeding
`MAX_REQUEST_SIZE - 500 = 19980`, because the first line of a segment is
appended before any size check can flush it. -/
theorem claim_C2_cex :
    send_segmented_segments longLine = [longLine] ∧
    utf8Len longLine = 20000 ∧
    ¬ (utf8Len longLine ≤ MAX_REQUEST_SIZE - 500) := by
  have hsplit : pySplitLines longLine = [longLine] := by
    show (splitChars '\n' (List.replicate 20000 'a')).map String.mk = [longLine]
    rw [splitChars_replicate_of_ne '\n' 'a' (by decide) 20000]
    rfl
  refine ⟨?_, utf8Len_longLine, ?_⟩
  · unfold send_segmented_segments
    rw [hsplit]
    simp only [segGo]
    rw [if_neg (by simp)]
    simp only [segGo, List.nil_append]
    rw [if_neg (by simp)]
    show [pyJoinLines [longLine]] = [longLine]
    rfl
  · rw [utf8Len_longLine]
    decide

/-- Claim C2 witness: the amended size bound applied to the two-line
content `a\nb`, whose lines all fit the budget. -/
theorem claim_C2_witness :
    ∀ seg ∈ send_segmented_segments "a\nb",
      utf8Len seg ≤ MAX_REQUEST_SIZE - 500 :=
  (claim_C2_thm "a\nb").2.2 (by decide)
